import Mathlib

/-!
The handshake, the registry and the routing of openport.

A shallow embedding of the tunnel server and client of `openport`
(`internal/server/server.go`, `internal/tunnel/tunnel.go`,
`internal/client/client.go`) together with the Go library routines those
files call, and theorems about them.

Conventions.
* A Go `string` / `[]byte` is a list of bytes, each byte a natural number
  below 256 (`GoString`).  Nothing is assumed about the bytes being valid
  UTF-8.
* The outcome of every operation on the outside world (random source, writes,
  session construction, reads of a connection) is an explicit input.
-/

namespace Openport

/-! ## Go strings -/

/-- Go `string`: a sequence of bytes. -/
abbrev GoString := List Nat

/-- Go `utf8.AppendRune` on an empty buffer: the UTF-8 bytes of a valid rune. -/
def encodeRune (r : Nat) : GoString :=
  if r < 0x80 then [r]
  else if r < 0x800 then [0xC0 ||| (r >>> 6), 0x80 ||| (r &&& 0x3F)]
  else if r < 0x10000 then
    [0xE0 ||| (r >>> 12), 0x80 ||| ((r >>> 6) &&& 0x3F), 0x80 ||| (r &&& 0x3F)]
  else
    [0xF0 ||| (r >>> 18), 0x80 ||| ((r >>> 12) &&& 0x3F),
      0x80 ||| ((r >>> 6) &&& 0x3F), 0x80 ||| (r &&& 0x3F)]

/-- The bytes of a string literal of the Go source (its UTF-8 encoding). -/
def str (s : String) : GoString := s.toList.flatMap (fun c => encodeRune c.toNat)

/-- Go `utf8.RuneError`, U+FFFD. -/
def RuneError : Nat := 0xFFFD

/-- The size column of the table `first` of `unicode/utf8` for a leading
byte from `0xC2` to `0xF4`: the length of the encoding it starts. -/
def runeSize (s0 : Nat) : Nat :=
  if s0 < 0xE0 then 2 else if s0 < 0xF0 then 3 else 4

/-- The lower bound of the table `acceptRanges` for the second byte. -/
def acceptLo (s0 : Nat) : Nat :=
  if s0 = 0xE0 then 0xA0 else if s0 = 0xF0 then 0x90 else 0x80

/-- The upper bound of the table `acceptRanges` for the second byte. -/
def acceptHi (s0 : Nat) : Nat :=
  if s0 = 0xED then 0x9F else if s0 = 0xF4 then 0x8F else 0xBF

/-- Go `utf8.DecodeRuneInString`: the first rune of `s` and its width in
bytes; `(RuneError, 1)` for an invalid or truncated encoding and
`(RuneError, 0)` for the empty string. -/
def decodeRune (s : GoString) : Nat × Nat :=
  match s with
  | [] => (RuneError, 0)
  | s0 :: t =>
    if s0 < 0x80 then (s0, 1)
    else if s0 < 0xC2 ∨ 0xF4 < s0 then (RuneError, 1)
    else if s.length < runeSize s0 then (RuneError, 1)
    else
      match t with
      | [] => (RuneError, 1)
      | s1 :: t1 =>
        if s1 < acceptLo s0 ∨ acceptHi s0 < s1 then (RuneError, 1)
        else if runeSize s0 ≤ 2 then (((s0 &&& 0x1F) <<< 6) ||| (s1 &&& 0x3F), 2)
        else
          match t1 with
          | [] => (RuneError, 1)
          | s2 :: t2 =>
            if s2 < 0x80 ∨ 0xBF < s2 then (RuneError, 1)
            else if runeSize s0 ≤ 3 then
              (((s0 &&& 0x0F) <<< 12) ||| ((s1 &&& 0x3F) <<< 6) ||| (s2 &&& 0x3F), 3)
            else
              match t2 with
              | [] => (RuneError, 1)
              | s3 :: _ =>
                if s3 < 0x80 ∨ 0xBF < s3 then (RuneError, 1)
                else
                  (((s0 &&& 0x07) <<< 18) ||| ((s1 &&& 0x3F) <<< 12)
                    ||| ((s2 &&& 0x3F) <<< 6) ||| (s3 &&& 0x3F), 4)

/-- Go `strings.HasPrefix`. -/
def HasPrefix (s pre : GoString) : Bool :=
  decide (pre.length ≤ s.length ∧ s.take pre.length = pre)

/-- Go `strings.HasSuffix`:
`len(s) >= len(suffix) && s[len(s)-len(suffix):] == suffix`. -/
def HasSuffix (s suffix : GoString) : Bool :=
  decide (suffix.length ≤ s.length ∧ s.drop (s.length - suffix.length) = suffix)

/-- Go `strings.TrimSuffix`: `s[:len(s)-len(suffix)]` when `s` has the suffix,
`s` otherwise. -/
def TrimSuffix (s suffix : GoString) : GoString :=
  if HasSuffix s suffix then s.take (s.length - suffix.length) else s

/-- Go `strings.LastIndex`: the index of the last occurrence of `sub` in `s`,
or `-1`. -/
def LastIndex (s sub : GoString) : Int :=
  match s with
  | [] => if sub = [] then 0 else -1
  | c :: t =>
    let r := LastIndex t sub
    if r ≠ -1 then r + 1
    else if HasPrefix (c :: t) sub then 0
    else -1

/-- Go `strings.Contains`: some suffix of `s` starts with `sub`. -/
def Contains (s sub : GoString) : Bool :=
  match s with
  | [] => HasPrefix [] sub
  | c :: t => HasPrefix (c :: t) sub || Contains t sub

/-! ## Hexadecimal -/

/-- The digit table `"0123456789abcdef"` of `encoding/hex` and `strconv`,
indexed by a value below 16. -/
def hexDigit (n : Nat) : Nat :=
  if n < 10 then 0x30 + n else 0x61 + (n - 10)

/-- The two digits `hextable[b>>4], hextable[b&0x0f]` of one byte. -/
def hexByte (b : Nat) : GoString :=
  [hexDigit ((b % 256) >>> 4), hexDigit ((b % 256) &&& 0x0F)]

/-- Go `hex.EncodeToString`. -/
def hexEncodeToString (src : List Nat) : GoString :=
  src.flatMap hexByte

/-! ## `strconv.Quote`, the `%q` verb of `fmt` -/

/-- Go `strconv.IsPrint`.  For runes above U+00FF the library searches
generated tables that are not part of this repository; they are the
parameter `wide`. -/
def IsPrint (wide : Nat → Bool) (r : Nat) : Bool :=
  if r ≤ 0xFF then
    if 0x20 ≤ r ∧ r ≤ 0x7E then true
    else if 0xA1 ≤ r ∧ r ≤ 0xFF then r ≠ 0xAD
    else false
  else wide r

/-- Go `utf8.ValidRune`. -/
def ValidRune (r : Nat) : Bool :=
  r < 0xD800 || (0xDFFF < r && r ≤ 0x10FFFF)

/-- The hexadecimal digits of `r` taken at the shifts `4*(n-1), ..., 4, 0`. -/
def hexNibbles (r : Nat) : Nat → GoString
  | 0 => []
  | n + 1 => hexDigit ((r >>> (4 * n)) &&& 0xF) :: hexNibbles r n

/-- Go `strconv.appendEscapedRune` with quote `"`, `ASCIIonly` and
`graphicOnly` false. -/
def appendEscapedRune (wide : Nat → Bool) (r : Nat) : GoString :=
  if r = 0x22 ∨ r = 0x5C then [0x5C, r]
  else if IsPrint wide r then encodeRune r
  else if r = 0x07 then str "\\a"
  else if r = 0x08 then str "\\b"
  else if r = 0x0C then str "\\f"
  else if r = 0x0A then str "\\n"
  else if r = 0x0D then str "\\r"
  else if r = 0x09 then str "\\t"
  else if r = 0x0B then str "\\v"
  else if r < 0x20 ∨ r = 0x7F then str "\\x" ++ hexByte r
  else if !ValidRune r then str "\\u" ++ hexNibbles 0xFFFD 4
  else if r < 0x10000 then str "\\u" ++ hexNibbles r 4
  else str "\\U" ++ hexNibbles r 8

/-- The loop of Go `strconv.appendQuotedWith`: one rune per iteration; a byte
that starts no valid encoding is written as `\x` and two digits.  `fuel`
bounds the number of iterations. -/
def quoteLoop (wide : Nat → Bool) : Nat → GoString → GoString
  | 0, _ => []
  | _, [] => []
  | fuel + 1, s0 :: t =>
    let (r, width) := if s0 ≥ 0x80 then decodeRune (s0 :: t) else (s0, 1)
    if width = 1 ∧ r = RuneError then
      str "\\x" ++ hexByte s0 ++ quoteLoop wide fuel t
    else
      appendEscapedRune wide r ++ quoteLoop wide fuel ((s0 :: t).drop width)

/-- Go `strconv.Quote`, which is what `fmt` prints for `%q` of a string. -/
def Quote (wide : Nat → Bool) (s : GoString) : GoString :=
  [0x22] ++ quoteLoop wide s.length s ++ [0x22]

/-! ## `internal/server`: labels and routing -/

/-- `extractSubdomain` of `server.go`. -/
def extractSubdomain (host baseDomain : GoString) : GoString :=
  let idx := LastIndex host (str ":")
  let host := if idx ≠ -1 then host.take idx.toNat else host
  if !HasSuffix host (str "." ++ baseDomain) then []
  else TrimSuffix host (str "." ++ baseDomain)

/-- The slice `b` after `b := make([]byte, n); rand.Read(b)`, where `rnd` are
the bytes the random source produced: `n` bytes, zero where the source gave
none. -/
def randRead (n : Nat) (rnd : List Nat) : List Nat :=
  (rnd ++ List.replicate n 0).take n

/-- `randomSubdomain` of `server.go`; `rnd` is the output of the random
source. -/
def randomSubdomain (rnd : List Nat) : GoString :=
  hexEncodeToString (randRead 4 rnd)

/-- `randomID` of `server.go`; `rnd` is the output of the random source. -/
def randomID (rnd : List Nat) : GoString :=
  hexEncodeToString (randRead 8 rnd)

/-! ## `internal/tunnel`: messages and records -/

/-- `tunnel.Handshake`. -/
structure Handshake where
  Subdomain : GoString
deriving DecidableEq

/-- `tunnel.HandshakeResp`. -/
structure HandshakeResp where
  Subdomain : GoString := []
  URL : GoString := []
  Error : GoString := []
deriving DecidableEq

/-- `tunnel.Tunnel`; the connection and the session are named by numbers. -/
structure Tunnel where
  ID : GoString
  Subdomain : GoString
  Conn : Nat
  Session : Nat
deriving DecidableEq

/-- `server.Config`. -/
structure Config where
  Addr : GoString
  TunnelAddr : GoString
  Domain : GoString
deriving DecidableEq

/-! ## The tunnel registry, `map[string]*tunnel.Tunnel` -/

/-- The map `Server.tunnels`: a list of bindings with at most one binding
for a key as long as it is only changed by `set` and `delete`. -/
abbrev Registry := List (GoString × Tunnel)

/-- The map read `t, ok := m[k]`. -/
def Registry.get? (m : Registry) (k : GoString) : Option Tunnel :=
  (m.find? (fun e => e.1 = k)).map (fun e => e.2)

/-- The builtin `delete(m, k)`. -/
def Registry.delete (m : Registry) (k : GoString) : Registry :=
  m.filter (fun e => e.1 ≠ k)

/-- The map assignment `m[k] = t`. -/
def Registry.set (m : Registry) (k : GoString) (t : Tunnel) : Registry :=
  (k, t) :: m.delete k

/-! ## `Server.handleNewTunnel`, one handler running alone -/

/-- What the outside world does during one run of `handleNewTunnel`. -/
structure TunnelEnv where
  /-- The connection the handler was given. -/
  conn : Nat
  /-- The result of `tunnel.ReadHandshake(conn)`; `none` is an error. -/
  hs : Option Handshake
  /-- The random bytes drawn by `randomSubdomain`. -/
  rndSub : List Nat
  /-- The random bytes drawn by `randomID`. -/
  rndID : List Nat
  /-- Whether `tunnel.SendHandshakeResp` returns an error. -/
  sendErr : Bool
  /-- The result of `yamux.Client(conn, nil)`; `none` is an error. -/
  session : Option Nat
deriving DecidableEq

/-- The effects of `handleNewTunnel` up to the point where it returns or
blocks on the session's close channel. -/
structure TunnelOutcome where
  /-- The registry afterwards. -/
  tunnels : Registry
  /-- The responses passed to `SendHandshakeResp`, in order. -/
  sent : List HandshakeResp
  /-- Whether the handler closed the connection. -/
  connClosed : Bool
  /-- The record the handler inserted; it then waits on `CloseChan`. -/
  registered : Option Tunnel
deriving DecidableEq

/-- The error text of the conflict response,
`fmt.Sprintf("subdomain %q is already in use", subdomain)`. -/
def conflictError (wide : Nat → Bool) (subdomain : GoString) : GoString :=
  str "subdomain " ++ Quote wide subdomain ++ str " is already in use"

/-- The public URL, `fmt.Sprintf("http://%s.%s%s", subdomain, Domain, Addr)`. -/
def tunnelURL (cfg : Config) (subdomain : GoString) : GoString :=
  str "http://" ++ subdomain ++ str "." ++ cfg.Domain ++ cfg.Addr

/-- `Server.handleNewTunnel` of `server.go`, lines 92 to 143, with no other
handler running in between. -/
def handleNewTunnel (wide : Nat → Bool) (cfg : Config) (tunnels : Registry)
    (env : TunnelEnv) : TunnelOutcome :=
  match env.hs with
  | none => { tunnels := tunnels, sent := [], connClosed := true, registered := none }
  | some hs =>
    let subdomain := if hs.Subdomain = [] then randomSubdomain env.rndSub else hs.Subdomain
    if (tunnels.get? subdomain).isSome then
      { tunnels := tunnels
        sent := [{ Error := conflictError wide subdomain }]
        connClosed := true
        registered := none }
    else
      let url := tunnelURL cfg subdomain
      let resp : HandshakeResp := { Subdomain := subdomain, URL := url }
      match env.session with
      | none => { tunnels := tunnels, sent := [resp], connClosed := true, registered := none }
      | some session =>
        let t : Tunnel :=
          { ID := randomID env.rndID, Subdomain := subdomain, Conn := env.conn, Session := session }
        { tunnels := tunnels.set subdomain t
          sent := [resp]
          connClosed := false
          registered := some t }

/-- The end of `handleNewTunnel`, lines 146 to 151: what the handler does to
the registry once the close channel of its session fires. -/
def unregister (tunnels : Registry) (subdomain : GoString) : Registry :=
  tunnels.delete subdomain

/-! ## `Server.handleHTTP` -/

/-- An HTTP response as `handleHTTP` produces or relays it. -/
structure Response where
  StatusCode : Nat
  Header : List (GoString × GoString)
  Body : GoString
deriving DecidableEq

/-- What the tunnel does during one public request. -/
structure StreamEnv where
  /-- Whether `t.Session.Open()` returns an error. -/
  openErr : Bool
  /-- Whether `r.Write(stream)` returns an error. -/
  writeErr : Bool
  /-- The result of `http.ReadResponse`; `none` is an error. -/
  resp : Option Response
deriving DecidableEq

/-- The effects of one run of `handleHTTP`. -/
structure HTTPOutcome where
  /-- The response written to the public client. -/
  response : Response
  /-- The session on which `Open` was called, if it was called. -/
  opened : Option Nat
deriving DecidableEq

/-- Go `http.Error`: plain-text headers, the status code, and the message
followed by a newline (`fmt.Fprintln`). -/
def httpError (msg : GoString) (code : Nat) : Response :=
  { StatusCode := code
    Header := [(str "Content-Type", str "text/plain; charset=utf-8"),
      (str "X-Content-Type-Options", str "nosniff")]
    Body := msg ++ str "\n" }

/-- `Server.handleHTTP` of `server.go`; `host` is `r.Host`. -/
def handleHTTP (wide : Nat → Bool) (cfg : Config) (tunnels : Registry) (host : GoString)
    (env : StreamEnv) : HTTPOutcome :=
  let subdomain := extractSubdomain host cfg.Domain
  if subdomain = [] then
    { response := httpError (str "openport: no tunnel specified") 400, opened := none }
  else
    match tunnels.get? subdomain with
    | none =>
      { response :=
          httpError (str "openport: tunnel " ++ Quote wide subdomain ++ str " not found") 404
        opened := none }
    | some t =>
      if env.openErr then
        { response := httpError (str "openport: failed to reach tunnel client") 502
          opened := some t.Session }
      else if env.writeErr then
        { response := httpError (str "openport: failed to forward request") 502
          opened := some t.Session }
      else
        match env.resp with
        | none =>
          { response := httpError (str "openport: failed to read response from tunnel") 502
            opened := some t.Session }
        | some resp => { response := resp, opened := some t.Session }

/-! ## `Client.Connect` -/

/-- The four sentinel errors of `client.go`. -/
inductive ErrKind where
  | ErrLocalNotReachable
  | ErrServerUnreachable
  | ErrSubdomainTaken
  | ErrConnectionLost
deriving DecidableEq

/-- `client.ConnectError`. -/
structure ConnectError where
  Kind : ErrKind
  Addr : GoString
  Detail : GoString
deriving DecidableEq

/-- The fields of `client.Config` that `Connect` reads. -/
structure ClientConfig where
  ServerAddr : GoString
  LocalAddr : GoString
  Subdomain : GoString
deriving DecidableEq

/-- What the outside world does during one run of `Connect`. -/
structure ConnectEnv where
  /-- Whether the dial of the local address fails. -/
  localDialErr : Bool
  /-- The value of `c.Port()`, from `net.SplitHostPort`. -/
  port : GoString
  /-- Whether the dial of the server fails. -/
  serverDialErr : Bool
  /-- Whether `tunnel.SendHandshake` returns an error. -/
  sendErr : Bool
  /-- The result of `tunnel.ReadHandshakeResp`; `none` is an error. -/
  resp : Option HandshakeResp
  /-- Whether `yamux.Server` returns an error. -/
  sessionErr : Bool
  /-- Whether `session.Accept` ever returns an error. -/
  acceptErr : Bool
deriving DecidableEq

/-- `Client.Connect` of `client.go`: the error it returns, or `none` when the
accept loop never ends. -/
def Connect (cfg : ClientConfig) (env : ConnectEnv) : Option ConnectError :=
  if env.localDialErr then
    some { Kind := .ErrLocalNotReachable, Addr := cfg.LocalAddr, Detail := str "port " ++ env.port }
  else if env.serverDialErr then
    some { Kind := .ErrServerUnreachable, Addr := cfg.ServerAddr, Detail := cfg.ServerAddr }
  else if env.sendErr then
    some { Kind := .ErrServerUnreachable, Addr := cfg.ServerAddr, Detail := str "handshake failed" }
  else
    match env.resp with
    | none =>
      some { Kind := .ErrServerUnreachable, Addr := cfg.ServerAddr
             Detail := str "no response from server" }
    | some resp =>
      if resp.Error ≠ [] then
        if Contains resp.Error (str "already in use") then
          some { Kind := .ErrSubdomainTaken, Addr := cfg.Subdomain, Detail := cfg.Subdomain }
        else
          some { Kind := .ErrServerUnreachable, Addr := cfg.ServerAddr, Detail := resp.Error }
      else if env.sessionErr then
        some { Kind := .ErrConnectionLost, Addr := cfg.ServerAddr
               Detail := str "failed to establish multiplexed session" }
      else if env.acceptErr then
        some { Kind := .ErrConnectionLost, Addr := cfg.ServerAddr
               Detail := str "tunnel disconnected" }
      else none

/-! ## `encoding/json`: writing a message -/

/-- The table `htmlSafeSet` of `encoding/json`: the ASCII bytes an encoder
with `escapeHTML` set copies unchanged. -/
def htmlSafe (b : Nat) : Bool :=
  decide (0x20 ≤ b ∧ b < 0x80 ∧ b ≠ 0x22 ∧ b ≠ 0x26 ∧ b ≠ 0x3C ∧ b ≠ 0x3E ∧ b ≠ 0x5C)

/-- The loop of `encoding/json`'s `appendString` with `escapeHTML` set (the
default of an `Encoder`), as of Go 1.22: one ASCII byte or one rune per
iteration.  `fuel` bounds the number of iterations. -/
def appendStringLoop : Nat → GoString → GoString
  | 0, _ => []
  | _, [] => []
  | fuel + 1, b :: t =>
    if b < 0x80 then
      (if htmlSafe b then [b]
       else if b = 0x5C ∨ b = 0x22 then [0x5C, b]
       else if b = 0x08 then str "\\b"
       else if b = 0x0C then str "\\f"
       else if b = 0x0A then str "\\n"
       else if b = 0x0D then str "\\r"
       else if b = 0x09 then str "\\t"
       else str "\\u00" ++ [hexDigit (b >>> 4), hexDigit (b &&& 0xF)])
        ++ appendStringLoop fuel t
    else
      let (c, size) := decodeRune ((b :: t).take 4)
      if c = RuneError ∧ size = 1 then str "\\ufffd" ++ appendStringLoop fuel t
      else if c = 0x2028 ∨ c = 0x2029 then
        str "\\u202" ++ [hexDigit (c &&& 0xF)] ++ appendStringLoop fuel ((b :: t).drop size)
      else (b :: t).take size ++ appendStringLoop fuel ((b :: t).drop size)

/-- A Go string as a JSON string literal (`appendString`). -/
def jsonString (s : GoString) : GoString :=
  [0x22] ++ appendStringLoop s.length s ++ [0x22]

/-- One string field of a struct with its `json` tag. -/
structure Field where
  name : GoString
  omitempty : Bool
  value : GoString
deriving DecidableEq

/-- The members the struct encoder writes: in field order, a field with
`omitempty` skipped when its string is empty. -/
def members (fields : List Field) : List GoString :=
  (fields.filter (fun f => !(f.omitempty && f.value.isEmpty))).map
    (fun f => jsonString f.name ++ str ":" ++ jsonString f.value)

/-- Go `json.Marshal` of a struct of string fields. -/
def marshalStruct (fields : List Field) : GoString :=
  [0x7B] ++ List.intercalate (str ",") (members fields) ++ [0x7D]

/-- Go `(*json.Encoder).Encode` of a struct of string fields: the bytes
handed to the writer in one `Write`.  The encoder ends each value with a
newline. -/
def Encode (fields : List Field) : GoString :=
  marshalStruct fields ++ [0x0A]

/-- The fields of `tunnel.Handshake` with their tags. -/
def Handshake.fields (h : Handshake) : List Field :=
  [{ name := str "subdomain", omitempty := true, value := h.Subdomain }]

/-- The fields of `tunnel.HandshakeResp` with their tags. -/
def HandshakeResp.fields (r : HandshakeResp) : List Field :=
  [{ name := str "subdomain", omitempty := false, value := r.Subdomain },
   { name := str "url", omitempty := false, value := r.URL },
   { name := str "error", omitempty := true, value := r.Error }]

/-- `tunnel.SendHandshake`: the bytes written to the connection. -/
def SendHandshake (h : Handshake) : GoString :=
  Encode h.fields

/-- `tunnel.SendHandshakeResp`: the bytes written to the connection. -/
def SendHandshakeResp (r : HandshakeResp) : GoString :=
  Encode r.fields

/-! ## `encoding/json`: the scanner -/

/-- The entries of the scanner's `parseState` stack. -/
inductive ParseState where
  | parseObjectKey
  | parseObjectValue
  | parseArrayValue
deriving DecidableEq

/-- The scanner's `step` field: which state function reads the next byte. -/
inductive StepFn where
  | stateBeginValueOrEmpty | stateBeginValue | stateBeginStringOrEmpty | stateBeginString
  | stateEndValue | stateEndTop
  | stateInString | stateInStringEsc
  | stateInStringEscU | stateInStringEscU1 | stateInStringEscU12 | stateInStringEscU123
  | stateNeg | state1 | state0 | stateDot | stateDot0 | stateE | stateESign | stateE0
  | stateT | stateTr | stateTru | stateF | stateFa | stateFal | stateFals
  | stateN | stateNu | stateNul
  | stateError
deriving DecidableEq

/-- The codes a state function returns. -/
inductive ScanCode where
  | scanContinue | scanBeginLiteral | scanBeginObject | scanObjectKey | scanObjectValue
  | scanEndObject | scanBeginArray | scanArrayValue | scanEndArray | scanSkipSpace
  | scanEnd | scanError
deriving DecidableEq

/-- The `scanner` of `encoding/json`; the top of `parseState` is the head of
the list. -/
structure Scanner where
  step : StepFn
  parseState : List ParseState
deriving DecidableEq

/-- The scanner after `reset`. -/
def Scanner.reset : Scanner := { step := .stateBeginValue, parseState := [] }

/-- The `isSpace` of the scanner. -/
def isSpace (c : Nat) : Bool := c = 0x20 || c = 0x09 || c = 0x0D || c = 0x0A

/-- Whether `c` is a decimal digit. -/
def isDigit (c : Nat) : Bool := 0x30 ≤ c && c ≤ 0x39

/-- Whether `c` is a hexadecimal digit, as `stateInStringEscU` tests it. -/
def isHex (c : Nat) : Bool :=
  (0x30 ≤ c && c ≤ 0x39) || (0x61 ≤ c && c ≤ 0x66) || (0x41 ≤ c && c ≤ 0x46)

/-- The scanner's `maxNestingDepth`. -/
def maxNestingDepth : Nat := 10000

/-- The method `error` of the scanner. -/
def Scanner.error (s : Scanner) : Scanner × ScanCode :=
  ({ s with step := .stateError }, .scanError)

/-- The method `pushParseState`; `s` already has its new `step`. -/
def Scanner.pushParseState (s : Scanner) (p : ParseState) (success : ScanCode) :
    Scanner × ScanCode :=
  let s1 := { s with parseState := p :: s.parseState }
  if s1.parseState.length ≤ maxNestingDepth then (s1, success) else s1.error

/-- The method `popParseState`. -/
def Scanner.popParseState (s : Scanner) : Scanner :=
  let rest := s.parseState.tail
  { step := if rest.isEmpty then .stateEndTop else .stateEndValue, parseState := rest }

/-- The state function `stateEndTop`: it answers `scanEnd` whatever the byte
is, and records an error for a byte that is no space. -/
def stateEndTop (s : Scanner) (c : Nat) : Scanner × ScanCode :=
  if !isSpace c then ((s.error).1, .scanEnd) else (s, .scanEnd)

/-- The state function `stateEndValue`. -/
def stateEndValue (s : Scanner) (c : Nat) : Scanner × ScanCode :=
  match s.parseState with
  | [] => stateEndTop { s with step := .stateEndTop } c
  | ps :: rest =>
    if isSpace c then ({ s with step := .stateEndValue }, .scanSkipSpace)
    else
      match ps with
      | .parseObjectKey =>
        if c = 0x3A then
          ({ step := .stateBeginValue, parseState := .parseObjectValue :: rest }, .scanObjectKey)
        else s.error
      | .parseObjectValue =>
        if c = 0x2C then
          ({ step := .stateBeginString, parseState := .parseObjectKey :: rest }, .scanObjectValue)
        else if c = 0x7D then (s.popParseState, .scanEndObject)
        else s.error
      | .parseArrayValue =>
        if c = 0x2C then ({ s with step := .stateBeginValue }, .scanArrayValue)
        else if c = 0x5D then (s.popParseState, .scanEndArray)
        else s.error

/-- The state function `stateBeginString`. -/
def stateBeginString (s : Scanner) (c : Nat) : Scanner × ScanCode :=
  if isSpace c then (s, .scanSkipSpace)
  else if c = 0x22 then ({ s with step := .stateInString }, .scanBeginLiteral)
  else s.error

/-- The state function `stateBeginStringOrEmpty`. -/
def stateBeginStringOrEmpty (s : Scanner) (c : Nat) : Scanner × ScanCode :=
  if isSpace c then (s, .scanSkipSpace)
  else if c = 0x7D then
    stateEndValue { s with parseState := .parseObjectValue :: s.parseState.tail } c
  else stateBeginString s c

/-- The state function `stateBeginValue`. -/
def stateBeginValue (s : Scanner) (c : Nat) : Scanner × ScanCode :=
  if isSpace c then (s, .scanSkipSpace)
  else if c = 0x7B then
    Scanner.pushParseState { s with step := .stateBeginStringOrEmpty } .parseObjectKey
      .scanBeginObject
  else if c = 0x5B then
    Scanner.pushParseState { s with step := .stateBeginValueOrEmpty } .parseArrayValue
      .scanBeginArray
  else if c = 0x22 then ({ s with step := .stateInString }, .scanBeginLiteral)
  else if c = 0x2D then ({ s with step := .stateNeg }, .scanBeginLiteral)
  else if c = 0x30 then ({ s with step := .state0 }, .scanBeginLiteral)
  else if c = 0x74 then ({ s with step := .stateT }, .scanBeginLiteral)
  else if c = 0x66 then ({ s with step := .stateF }, .scanBeginLiteral)
  else if c = 0x6E then ({ s with step := .stateN }, .scanBeginLiteral)
  else if 0x31 ≤ c ∧ c ≤ 0x39 then ({ s with step := .state1 }, .scanBeginLiteral)
  else s.error

/-- The state function `stateBeginValueOrEmpty`. -/
def stateBeginValueOrEmpty (s : Scanner) (c : Nat) : Scanner × ScanCode :=
  if isSpace c then (s, .scanSkipSpace)
  else if c = 0x5D then stateEndValue s c
  else stateBeginValue s c

/-- The state function `state0`. -/
def state0 (s : Scanner) (c : Nat) : Scanner × ScanCode :=
  if c = 0x2E then ({ s with step := .stateDot }, .scanContinue)
  else if c = 0x65 ∨ c = 0x45 then ({ s with step := .stateE }, .scanContinue)
  else stateEndValue s c

/-- The state function `stateESign`. -/
def stateESign (s : Scanner) (c : Nat) : Scanner × ScanCode :=
  if isDigit c then ({ s with step := .stateE0 }, .scanContinue) else s.error

/-- A state function that accepts exactly the byte `want` and moves to
`next`: the states inside `true`, `false` and `null`. -/
def expectByte (s : Scanner) (c want : Nat) (next : StepFn) : Scanner × ScanCode :=
  if c = want then ({ s with step := next }, .scanContinue) else s.error

/-- One call `s.step(s, c)`: the scanner afterwards and the code returned. -/
def Scanner.next (s : Scanner) (c : Nat) : Scanner × ScanCode :=
  match s.step with
  | .stateBeginValueOrEmpty => stateBeginValueOrEmpty s c
  | .stateBeginValue => stateBeginValue s c
  | .stateBeginStringOrEmpty => stateBeginStringOrEmpty s c
  | .stateBeginString => stateBeginString s c
  | .stateEndValue => stateEndValue s c
  | .stateEndTop => stateEndTop s c
  | .stateInString =>
    if c = 0x22 then ({ s with step := .stateEndValue }, .scanContinue)
    else if c = 0x5C then ({ s with step := .stateInStringEsc }, .scanContinue)
    else if c < 0x20 then s.error
    else (s, .scanContinue)
  | .stateInStringEsc =>
    if c = 0x62 ∨ c = 0x66 ∨ c = 0x6E ∨ c = 0x72 ∨ c = 0x74 ∨ c = 0x5C ∨ c = 0x2F ∨ c = 0x22 then
      ({ s with step := .stateInString }, .scanContinue)
    else if c = 0x75 then ({ s with step := .stateInStringEscU }, .scanContinue)
    else s.error
  | .stateInStringEscU =>
    if isHex c then ({ s with step := .stateInStringEscU1 }, .scanContinue) else s.error
  | .stateInStringEscU1 =>
    if isHex c then ({ s with step := .stateInStringEscU12 }, .scanContinue) else s.error
  | .stateInStringEscU12 =>
    if isHex c then ({ s with step := .stateInStringEscU123 }, .scanContinue) else s.error
  | .stateInStringEscU123 =>
    if isHex c then ({ s with step := .stateInString }, .scanContinue) else s.error
  | .stateNeg =>
    if c = 0x30 then ({ s with step := .state0 }, .scanContinue)
    else if 0x31 ≤ c ∧ c ≤ 0x39 then ({ s with step := .state1 }, .scanContinue)
    else s.error
  | .state1 =>
    if isDigit c then ({ s with step := .state1 }, .scanContinue) else state0 s c
  | .state0 => state0 s c
  | .stateDot =>
    if isDigit c then ({ s with step := .stateDot0 }, .scanContinue) else s.error
  | .stateDot0 =>
    if isDigit c then (s, .scanContinue)
    else if c = 0x65 ∨ c = 0x45 then ({ s with step := .stateE }, .scanContinue)
    else stateEndValue s c
  | .stateE =>
    if c = 0x2B ∨ c = 0x2D then ({ s with step := .stateESign }, .scanContinue)
    else stateESign s c
  | .stateESign => stateESign s c
  | .stateE0 => if isDigit c then (s, .scanContinue) else stateEndValue s c
  | .stateT => expectByte s c 0x72 .stateTr
  | .stateTr => expectByte s c 0x75 .stateTru
  | .stateTru => expectByte s c 0x65 .stateEndValue
  | .stateF => expectByte s c 0x61 .stateFa
  | .stateFa => expectByte s c 0x6C .stateFal
  | .stateFal => expectByte s c 0x73 .stateFals
  | .stateFals => expectByte s c 0x65 .stateEndValue
  | .stateN => expectByte s c 0x75 .stateNu
  | .stateNu => expectByte s c 0x6C .stateNul
  | .stateNul => expectByte s c 0x6C .stateEndValue
  | .stateError => (s, .scanError)

/-! ## `encoding/json`: the decoder on a connection -/

/-- A connection seen from its reader: the data still to arrive, as the
pieces in which the connection hands it over.  A `Read` returns bytes of the
first piece only; with no piece left it returns an error (the peer closed). -/
abbrev Conn := List (List Nat)

/-- One `conn.Read(p)` with `len(p) = n`: the bytes returned and the
connection afterwards, or `none` for an error. -/
def Conn.read (c : Conn) (n : Nat) : Option (List Nat × Conn) :=
  match c with
  | [] => none
  | piece :: rest =>
    if piece.length ≤ n then some (piece, rest)
    else some (piece.take n, piece.drop n :: rest)

/-- Every byte a reader of the connection gets from now on, in order. -/
def Conn.bytes (c : Conn) : List Nat := c.flatten

/-- A bound on the number of reads the connection can serve. -/
def Conn.size (c : Conn) : Nat := (c.map (fun piece => piece.length + 1)).sum

/-- The outcome of scanning a run of bytes in `readValue`. -/
inductive ScanOut where
  /-- The value ends after this many of the bytes. -/
  | ended (n : Nat)
  /-- The scanner reported a syntax error. -/
  | failed
  /-- All the bytes belong to the value, which is not complete. -/
  | more (s : Scanner)
deriving DecidableEq

/-- Moves the end of the value one byte to the right. -/
def ScanOut.shift : ScanOut → ScanOut
  | .ended n => .ended (n + 1)
  | o => o

/-- The inner loop of `(*Decoder).readValue`: feed the buffered bytes to the
scanner.  `scanEnd` ends the value before the current byte; `scanEndObject`
and `scanEndArray` end it after the current byte when the closed bracket was
the outermost one (the decoder asks `stateEndValue` with an invented space
instead of waiting for one more byte). -/
def scanBytes (s : Scanner) : List Nat → ScanOut
  | [] => .more s
  | c :: t =>
    let (s1, code) := s.next c
    match code with
    | .scanEnd => .ended 0
    | .scanError => .failed
    | .scanEndObject | .scanEndArray =>
      if (stateEndValue s1 0x20).2 = .scanEnd then .ended 1
      else (scanBytes (stateEndValue s1 0x20).1 t).shift
    | _ => (scanBytes s1 t).shift

/-- The result of `(*Decoder).readValue` on a fresh decoder. -/
inductive ReadResult where
  /-- A complete value `value`; `buffered` are the bytes read from the
  connection after it, which stay in the decoder's buffer; `conn` is the
  connection afterwards. -/
  | ok (value buffered : GoString) (conn : Conn)
  /-- An error: bad syntax, or the connection ended inside the value. -/
  | fail (conn : Conn)
deriving DecidableEq

/-- The bytes successive reads return, with buffers of the given sizes, and
the connection afterwards; `none` when one of the reads fails. -/
def Conn.reads (c : Conn) : List Nat → Option (List (List Nat) × Conn)
  | [] => some ([], c)
  | n :: ns =>
    match c.read n with
    | none => none
    | some (got, c1) => (Conn.reads c1 ns).map fun r => (got :: r.1, r.2)

/-- How `(*Decoder).refill` makes room before a read, in Go 1.22: the
capacity of the buffer afterwards, from its capacity and its length.  The
buffer is replaced by one of capacity `2*cap + minRead` when fewer than
`minRead = 512` bytes are free.  The standard library is not part of this
repository and other versions size the buffer otherwise, so the decoder below
takes this rule as the parameter `grow`. -/
def refillCap (cap len : Nat) : Nat :=
  if cap - len < 512 then 2 * cap + 512 else cap

/-- The outer loop of `(*Decoder).readValue` with `refill` inlined.  `buf` is
the decoder's buffer, all of it scanned, `cap` its capacity.  Each iteration
makes room in the buffer (`grow`), reads once into the free space, and scans
what arrived.  When the read fails the value is complete only if the scanner
ends it at an invented space.  `fuel` bounds the number of reads; `none`
means it ran out. -/
def readLoop (grow : Nat → Nat → Nat) :
    Nat → Scanner → GoString → Nat → Conn → Option ReadResult
  | 0, _, _, _, _ => none
  | fuel + 1, s, buf, cap, conn =>
    let cap1 := grow cap buf.length
    match conn.read (cap1 - buf.length) with
    | none =>
      if (s.next 0x20).2 = .scanEnd then some (.ok buf [] conn) else some (.fail conn)
    | some (got, conn1) =>
      match scanBytes s got with
      | .ended n => some (.ok (buf ++ got.take n) (got.drop n) conn1)
      | .failed => some (.fail conn1)
      | .more s1 => readLoop grow fuel s1 (buf ++ got) cap1 conn1

/-- `(*Decoder).readValue` of the decoder `json.NewDecoder(conn)` at its
first `Decode`: empty buffer, scanner reset. -/
def readValue (grow : Nat → Nat → Nat) (conn : Conn) : Option ReadResult :=
  readLoop grow (conn.size + 1) Scanner.reset [] 0 conn

/-- What a call `json.NewDecoder(conn).Decode(&v)` leaves behind. -/
structure Decoded (α : Type) where
  /-- The value decoded; `none` when `Decode` returned an error. -/
  result : Option α
  /-- The bytes the decoder read from the connection and did not use: they
  are in the decoder's buffer only. -/
  buffered : GoString
  /-- The connection afterwards. -/
  conn : Conn

/-- `json.NewDecoder(conn).Decode(&v)`.  The conversion of the text of the
value into a Go value is the parameter `unmarshal`; `none` from it is a
type error. -/
def Decode {α : Type} (grow : Nat → Nat → Nat) (unmarshal : GoString → Option α)
    (conn : Conn) : Option (Decoded α) :=
  (readValue grow conn).map fun r =>
    match r with
    | .ok value buffered conn1 => { result := unmarshal value, buffered := buffered, conn := conn1 }
    | .fail conn1 => { result := none, buffered := [], conn := conn1 }

/-- `tunnel.ReadHandshake`: the decoder is a local of the function, so its
buffer is gone when the function returns. -/
def ReadHandshake (grow : Nat → Nat → Nat) (unmarshal : GoString → Option Handshake)
    (conn : Conn) : Option (Decoded Handshake) :=
  Decode grow unmarshal conn

/-- `tunnel.ReadHandshakeResp`, with the same decoder. -/
def ReadHandshakeResp (grow : Nat → Nat → Nat)
    (unmarshal : GoString → Option HandshakeResp) (conn : Conn) :
    Option (Decoded HandshakeResp) :=
  Decode grow unmarshal conn

/-- The bytes the multiplex session reads: `yamux.Client(conn, nil)` in
`handleNewTunnel` and `yamux.Server(c.conn, nil)` in `Connect` are given the
connection itself. -/
def sessionInput {α : Type} (d : Decoded α) : List Nat := d.conn.bytes

/-! ## `Server.handleNewTunnel`, several handlers on one server

`acceptTunnels` starts one goroutine per connection.  The handlers share
`s.tunnels` and the mutex `s.mu`; everything else is local to a handler.  A
step of the system is one statement of one handler. -/

/-- The statement of `handleNewTunnel` a handler executes next, by line of
`server.go`. -/
inductive PC where
  /-- Lines 93 to 103: read the handshake, choose the label. -/
  | start
  /-- Line 105: `s.mu.Lock()`. -/
  | lockCheck
  /-- Line 106: `if _, exists := s.tunnels[subdomain]; exists`. -/
  | check
  /-- Line 107: `s.mu.Unlock()` on the conflict path. -/
  | unlockConflict
  /-- Lines 108 to 110: send the conflict response. -/
  | sendConflict
  /-- Lines 111 and 112: close the connection and return. -/
  | closeConflict
  /-- Line 114: `s.mu.Unlock()`. -/
  | unlockCheck
  /-- Lines 116 to 121: send the success response. -/
  | sendSuccess
  /-- Lines 125 to 137: open the session, build the record. -/
  | openSession
  /-- Line 139: `s.mu.Lock()`. -/
  | lockInsert
  /-- Line 140: `s.tunnels[subdomain] = t`. -/
  | insert
  /-- Line 141: `s.mu.Unlock()`. -/
  | unlockInsert
  /-- Line 146: `<-session.CloseChan()`. -/
  | waitClose
  /-- Line 148: `s.mu.Lock()`. -/
  | lockDelete
  /-- Line 149: `delete(s.tunnels, subdomain)`. -/
  | delete
  /-- Line 150: `s.mu.Unlock()`. -/
  | unlockDelete
  /-- The handler has returned. -/
  | done
deriving DecidableEq

/-- The local state of one handler. -/
structure Handler where
  pc : PC
  /-- What the outside world does for this handler. -/
  env : TunnelEnv
  /-- The local `subdomain`. -/
  subdomain : GoString
  /-- The responses passed to `SendHandshakeResp`, in order. -/
  sent : List HandshakeResp
  /-- Whether the handler closed its connection. -/
  connClosed : Bool
  /-- The local `t`, once built. -/
  tunnel : Option Tunnel
  /-- Whether the close channel of the handler's session has fired. -/
  sessionClosed : Bool
deriving DecidableEq

/-- A handler that was just started on a connection. -/
def Handler.init (env : TunnelEnv) : Handler :=
  { pc := .start, env := env, subdomain := [], sent := [], connClosed := false,
    tunnel := none, sessionClosed := false }

/-- The server with its handlers. -/
structure Sys where
  /-- The map `s.tunnels`. -/
  tunnels : Registry
  /-- The mutex `s.mu`: the index of the handler holding it. -/
  mu : Option Nat
  /-- The handlers, by index. -/
  handlers : List Handler
deriving DecidableEq

/-- What can happen next: handler `i` executes its next statement, or the
session of handler `i` ends. -/
inductive Event where
  | run (i : Nat)
  | closeSession (i : Nat)
deriving DecidableEq

/-- Handler `i` executes the statement at its `pc`.  `none` when it cannot:
the mutex is held, the close channel has not fired, or it has returned. -/
def runHandler (wide : Nat → Bool) (cfg : Config) (i : Nat) (h : Handler) (tunnels : Registry)
    (mu : Option Nat) : Option (Handler × Registry × Option Nat) :=
  match h.pc with
  | .start =>
    match h.env.hs with
    | none => some ({ h with pc := .done, connClosed := true }, tunnels, mu)
    | some hs =>
      some ({ h with
              pc := .lockCheck
              subdomain :=
                if hs.Subdomain = [] then randomSubdomain h.env.rndSub else hs.Subdomain },
            tunnels, mu)
  | .lockCheck => if mu = none then some ({ h with pc := .check }, tunnels, some i) else none
  | .check =>
    if (tunnels.get? h.subdomain).isSome then some ({ h with pc := .unlockConflict }, tunnels, mu)
    else some ({ h with pc := .unlockCheck }, tunnels, mu)
  | .unlockConflict => some ({ h with pc := .sendConflict }, tunnels, none)
  | .sendConflict =>
    some ({ h with pc := .closeConflict,
                   sent := h.sent ++ [{ Error := conflictError wide h.subdomain }] },
          tunnels, mu)
  | .closeConflict => some ({ h with pc := .done, connClosed := true }, tunnels, mu)
  | .unlockCheck => some ({ h with pc := .sendSuccess }, tunnels, none)
  | .sendSuccess =>
    some ({ h with pc := .openSession,
                   sent := h.sent ++
                     [{ Subdomain := h.subdomain, URL := tunnelURL cfg h.subdomain }] },
          tunnels, mu)
  | .openSession =>
    match h.env.session with
    | none => some ({ h with pc := .done, connClosed := true }, tunnels, mu)
    | some session =>
      some ({ h with
              pc := .lockInsert
              tunnel := some { ID := randomID h.env.rndID, Subdomain := h.subdomain,
                               Conn := h.env.conn, Session := session } },
            tunnels, mu)
  | .lockInsert => if mu = none then some ({ h with pc := .insert }, tunnels, some i) else none
  | .insert =>
    match h.tunnel with
    | none => none
    | some t => some ({ h with pc := .unlockInsert }, tunnels.set h.subdomain t, mu)
  | .unlockInsert => some ({ h with pc := .waitClose }, tunnels, none)
  | .waitClose => if h.sessionClosed then some ({ h with pc := .lockDelete }, tunnels, mu) else none
  | .lockDelete => if mu = none then some ({ h with pc := .delete }, tunnels, some i) else none
  | .delete => some ({ h with pc := .unlockDelete }, tunnels.delete h.subdomain, mu)
  | .unlockDelete => some ({ h with pc := .done }, tunnels, none)
  | .done => none

/-- One step of the system. -/
def Sys.step (wide : Nat → Bool) (cfg : Config) (σ : Sys) : Event → Option Sys
  | .run i =>
    match σ.handlers.get? i with
    | none => none
    | some h =>
      (runHandler wide cfg i h σ.tunnels σ.mu).map fun r =>
        { tunnels := r.2.1, mu := r.2.2, handlers := σ.handlers.set i r.1 }
  | .closeSession i =>
    match σ.handlers.get? i with
    | none => none
    | some h => some { σ with handlers := σ.handlers.set i { h with sessionClosed := true } }

/-- The system after a sequence of events; `none` when one of them cannot
happen. -/
def Sys.exec (wide : Nat → Bool) (cfg : Config) (σ : Sys) : List Event → Option Sys
  | [] => some σ
  | e :: es => (σ.step wide cfg e).bind fun σ1 => Sys.exec wide cfg σ1 es

/-- A server with registry `tunnels` on which the given connections were
just accepted. -/
def Sys.init (tunnels : Registry) (envs : List TunnelEnv) : Sys :=
  { tunnels := tunnels, mu := none, handlers := envs.map Handler.init }

/-- Whether the handler sent a response without error text: the success
response. -/
def Handler.sentSuccess (h : Handler) : Bool :=
  h.sent.any fun r => r.Error.isEmpty

/-- Whether the handler sent a response with error text: the conflict
response. -/
def Handler.sentConflict (h : Handler) : Bool :=
  h.sent.any fun r => !r.Error.isEmpty

/-! ## Notions used in the statements -/

/-- A label that `%q` prints unchanged between the quotes: printable ASCII
with no `"` and no `\`. -/
def plainLabel (s : GoString) : Bool :=
  s.all fun b => decide (0x20 ≤ b ∧ b ≤ 0x7E ∧ b ≠ 0x22 ∧ b ≠ 0x5C)

/-- Whether `c` is one of `0-9`, `a-f`. -/
def isLowerHex (c : Nat) : Bool := (0x30 ≤ c && c ≤ 0x39) || (0x61 ≤ c && c ≤ 0x66)

/-- The value of a digit written by `hexDigit`. -/
def unhexDigit (c : Nat) : Nat := if c < 0x3A then c - 0x30 else c - 0x61 + 10

/-- Moves the end of the value `k` bytes to the right. -/
def ScanOut.shiftBy (k : Nat) : ScanOut → ScanOut
  | .ended n => .ended (k + n)
  | o => o

/-- Continues a scan that used up `k` bytes without ending the value. -/
def ScanOut.andThen (o : ScanOut) (k : Nat) (f : Scanner → ScanOut) : ScanOut :=
  match o with
  | .more s1 => (f s1).shiftBy k
  | .ended n => .ended n
  | .failed => .failed

/-- Where the first JSON value of a byte stream ends, as the scanner of the
decoder sees it: `none` when the stream does not start with a complete
value.  A value that runs to the end of the stream is complete when the
scanner ends it at a space (a number or a literal). -/
def firstValueEnd (stream : List Nat) : Option Nat :=
  match scanBytes Scanner.reset stream with
  | .ended n => some n
  | .failed => none
  | .more s => if (s.next 0x20).2 = .scanEnd then some stream.length else none

/-- What `readLoop` returns for a scanner in state `s` and a buffer `buf`, on
the connection `conn`, stated on the bytes of the connection alone. -/
def ReadSpec (s : Scanner) (buf : GoString) (conn : Conn) (r : ReadResult) : Prop :=
  match scanBytes s conn.bytes with
  | .ended n =>
    ∃ buffered rest, r = .ok (buf ++ conn.bytes.take n) buffered rest ∧
      conn.bytes.drop n = buffered ++ rest.bytes
  | .failed => ∃ rest, r = .fail rest
  | .more s1 => r = if (s1.next 0x20).2 = .scanEnd then .ok (buf ++ conn.bytes) [] [] else .fail []

/-- The local `subdomain` of `handleNewTunnel` after lines 100 to 103: the
requested label, or a synthesized one when the request is empty. -/
def chosenLabel (hs : Handshake) (rnd : List Nat) : GoString :=
  if hs.Subdomain = [] then randomSubdomain rnd else hs.Subdomain

/-! ## The inputs of the scenarios -/

/-- The server of the scenarios: base domain `localhost`, public address
`:8080`, tunnel address `:9090`. -/
def scenarioConfig : Config :=
  { Addr := str ":8080", TunnelAddr := str ":9090", Domain := str "localhost" }

/-- A table for `IsPrint` in which no rune above U+00FF is printable. -/
def noWide : Nat → Bool := fun _ => false

/-- A record registered under `label`. -/
def recordFor (label : GoString) : Tunnel :=
  { ID := str "0000000000000001", Subdomain := label, Conn := 1, Session := 1 }

/-- The events in which handler 0 runs `n` statements. -/
def alone (n : Nat) : List Event := List.replicate n (.run 0)

/-- The schedule of the race: both handlers pass the check of lines 105 to
114 before either reaches the insertion of lines 139 to 141. -/
def raceSchedule : List Event :=
  [.run 0, .run 1,
   .run 0, .run 0, .run 0,
   .run 1, .run 1, .run 1,
   .run 0, .run 0, .run 0, .run 0, .run 0,
   .run 1, .run 1, .run 1, .run 1, .run 1]

/-- The header of the frame with which a yamux client opens stream 1: version
0, type window update, flag SYN, stream 1, length 0. -/
def yamuxSyn : List Nat := [0, 1, 0, 1, 0, 0, 0, 1, 0, 0, 0, 0]

/-- The success response of the happy-path scenario. -/
def demoResp : HandshakeResp :=
  { Subdomain := str "demo", URL := str "http://demo.localhost:8080" }

/-- The values of `json.Unmarshal` into a `Handshake` on the handshake texts
of the scenarios; any other text is answered with an error here. -/
def unmarshalHandshake (text : GoString) : Option Handshake :=
  if text = str "\x7b\"subdomain\":\"demo\"\x7d" then some { Subdomain := str "demo" }
  else if text = str "\x7b\x7d" then some { Subdomain := [] }
  else none

/-- The values of `json.Unmarshal` into a `HandshakeResp` on the response
texts of the scenarios; any other text is answered with an error here. -/
def unmarshalResp (text : GoString) : Option HandshakeResp :=
  if text = str "\x7b\"subdomain\":\"demo\",\"url\":\"http://demo.localhost:8080\"\x7d" then
    some demoResp
  else none

/-! ## Lemmas on the string routines -/

theorem str_colon : str ":" = [0x3A] := by decide

theorem str_dot : str "." = [0x2E] := by decide

theorem HasPrefix_iff (s p : GoString) : HasPrefix s p = true ↔ ∃ t, s = p ++ t := by
  unfold HasPrefix
  simp only [decide_eq_true_eq]
  constructor
  · rintro ⟨_, h⟩
    exact ⟨s.drop p.length, by
      conv_lhs => rw [← List.take_append_drop p.length s]
      rw [h]⟩
  · rintro ⟨t, rfl⟩
    simp

theorem HasSuffix_iff (s x : GoString) : HasSuffix s x = true ↔ ∃ t, s = t ++ x := by
  unfold HasSuffix
  simp only [decide_eq_true_eq]
  constructor
  · rintro ⟨_, h⟩
    exact ⟨s.take (s.length - x.length), by
      conv_lhs => rw [← List.take_append_drop (s.length - x.length) s]
      rw [h]⟩
  · rintro ⟨t, rfl⟩
    simp

theorem TrimSuffix_append (t x : GoString) : TrimSuffix (t ++ x) x = t := by
  unfold TrimSuffix
  rw [if_pos ((HasSuffix_iff _ _).2 ⟨t, rfl⟩)]
  simp

/-- `strings.Contains` holds exactly of the strings that have `sub` as a
contiguous part. -/
theorem Contains_iff (s sub : GoString) :
    Contains s sub = true ↔ ∃ pre post, s = pre ++ sub ++ post := by
  induction s with
  | nil =>
    simp only [Contains, HasPrefix_iff]
    constructor
    · rintro ⟨t, h⟩
      exact ⟨[], t, by simpa using h⟩
    · rintro ⟨pre, post, h⟩
      have h1 : pre = [] := by
        cases pre with
        | nil => rfl
        | cons a l => simp at h
      subst h1
      exact ⟨post, by simpa using h⟩
  | cons c t ih =>
    simp only [Contains, Bool.or_eq_true, HasPrefix_iff, ih]
    constructor
    · rintro (⟨r, h⟩ | ⟨pre, post, h⟩)
      · exact ⟨[], r, by simpa using h⟩
      · exact ⟨c :: pre, post, by simp [h]⟩
    · rintro ⟨pre, post, h⟩
      cases pre with
      | nil => exact Or.inl ⟨post, by simpa using h⟩
      | cons a l =>
        simp only [List.cons_append, List.cons.injEq] at h
        exact Or.inr ⟨l, post, h.2⟩

theorem LastIndex_cons (a : Nat) (t sub : GoString) :
    LastIndex (a :: t) sub =
      if LastIndex t sub ≠ -1 then LastIndex t sub + 1
      else if HasPrefix (a :: t) sub then 0 else -1 := by
  rw [LastIndex]

theorem LastIndex_absent (c : Nat) (s : GoString) (h : c ∉ s) : LastIndex s [c] = -1 := by
  induction s with
  | nil => simp [LastIndex]
  | cons a t ih =>
    have h1 : c ≠ a := fun e => h (by simp [e])
    have h2 : c ∉ t := fun e => h (by simp [e])
    have h3 : HasPrefix (a :: t) [c] = false := by
      rw [Bool.eq_false_iff]
      intro hp
      obtain ⟨r, hr⟩ := (HasPrefix_iff _ _).1 hp
      simp at hr
      exact h1 hr.1.symm
    simp [LastIndex, ih h2, h3]

theorem LastIndex_last (c : Nat) (p q : GoString) (h : c ∉ q) :
    LastIndex (p ++ c :: q) [c] = p.length := by
  induction p with
  | nil =>
    have h3 : HasPrefix (c :: q) [c] = true := (HasPrefix_iff _ _).2 ⟨q, rfl⟩
    simp [LastIndex, LastIndex_absent c q h, h3]
  | cons a t ih =>
    have : (t.length : Int) ≠ -1 := by omega
    rw [List.cons_append, LastIndex_cons, ih]
    simp [this]

/-- Either the byte does not occur, or the string splits at its last
occurrence, which is where `LastIndex` points. -/
theorem LastIndex_split (c : Nat) (s : GoString) :
    (c ∉ s ∧ LastIndex s [c] = -1) ∨
      ∃ p q, c ∉ q ∧ s = p ++ c :: q ∧ LastIndex s [c] = p.length := by
  induction s with
  | nil => left; simp [LastIndex]
  | cons a t ih =>
    rcases ih with ⟨h1, _⟩ | ⟨p, q, hq, hs, _⟩
    · by_cases hc : c = a
      · right
        refine ⟨[], t, h1, by simp [hc], ?_⟩
        subst hc
        exact LastIndex_last c [] t h1
      · left
        have : c ∉ a :: t := by simp [hc, h1]
        exact ⟨this, LastIndex_absent c _ this⟩
    · right
      refine ⟨a :: p, q, hq, by simp [hs], ?_⟩
      rw [hs]
      exact LastIndex_last c (a :: p) q hq

theorem extractSubdomain_eq (host base : GoString) :
    extractSubdomain host base =
      if HasSuffix (if LastIndex host [0x3A] ≠ -1 then host.take (LastIndex host [0x3A]).toNat
          else host) (0x2E :: base)
      then TrimSuffix (if LastIndex host [0x3A] ≠ -1 then host.take (LastIndex host [0x3A]).toNat
          else host) (0x2E :: base)
      else [] := by
  unfold extractSubdomain
  simp only [str_colon, str_dot, List.singleton_append]
  split <;> (cases hx : HasSuffix _ (0x2E :: base) <;> simp_all)

theorem extractSubdomain_noport (host base : GoString) (h : 0x3A ∉ host) :
    extractSubdomain host base =
      if HasSuffix host (0x2E :: base) then TrimSuffix host (0x2E :: base) else [] := by
  rw [extractSubdomain_eq, LastIndex_absent _ _ h]
  simp

theorem extractSubdomain_port (h port base : GoString) (hp : 0x3A ∉ port) :
    extractSubdomain (h ++ 0x3A :: port) base =
      if HasSuffix h (0x2E :: base) then TrimSuffix h (0x2E :: base) else [] := by
  rw [extractSubdomain_eq, LastIndex_last _ _ _ hp]
  have : (h.length : Int) ≠ -1 := by omega
  simp [this]

/-! ## Lemmas on quoting and on the conflict message -/

theorem appendEscapedRune_plain (wide : Nat → Bool) (b : Nat)
    (h : 0x20 ≤ b ∧ b ≤ 0x7E ∧ b ≠ 0x22 ∧ b ≠ 0x5C) : appendEscapedRune wide b = [b] := by
  obtain ⟨h1, h2, h3, h4⟩ := h
  have hp : IsPrint wide b = true := by
    unfold IsPrint
    rw [if_pos (by omega), if_pos ⟨h1, h2⟩]
  unfold appendEscapedRune
  rw [if_neg (by omega), if_pos hp]
  unfold encodeRune
  rw [if_pos (by omega)]

theorem quoteLoop_plain (wide : Nat → Bool) (s : GoString) (h : plainLabel s = true) :
    ∀ fuel, s.length ≤ fuel → quoteLoop wide fuel s = s := by
  induction s with
  | nil => intro fuel _; cases fuel <;> rfl
  | cons b t ih =>
    intro fuel hf
    cases fuel with
    | zero => simp at hf
    | succ n =>
      simp only [plainLabel, List.all_cons, Bool.and_eq_true, decide_eq_true_eq] at h
      have hb := h.1
      have hlt : ¬ b ≥ 0x80 := by omega
      have hre : ¬ (True ∧ b = RuneError) := by
        unfold RuneError
        omega
      simp only [quoteLoop, if_neg hlt, List.drop_succ_cons, List.drop_zero]
      rw [appendEscapedRune_plain wide b hb, ih h.2 n (by simpa using hf), if_neg hre]
      rfl

/-- A plain label is printed by `%q` as it is, between two double quotes. -/
theorem Quote_plain (wide : Nat → Bool) (s : GoString) (h : plainLabel s = true) :
    Quote wide s = str "\"" ++ s ++ str "\"" := by
  unfold Quote
  rw [quoteLoop_plain wide s h _ (Nat.le_refl _)]
  rfl

theorem conflictError_contains (wide : Nat → Bool) (label : GoString) :
    Contains (conflictError wide label) (str "already in use") = true := by
  rw [Contains_iff]
  exact ⟨str "subdomain " ++ Quote wide label ++ str " is ", [], by
    unfold conflictError
    have : str " is already in use" = str " is " ++ str "already in use" := by decide
    rw [this]
    simp⟩

theorem conflictError_ne_nil (wide : Nat → Bool) (label : GoString) :
    conflictError wide label ≠ [] := by
  unfold conflictError
  have : str "subdomain " = 0x73 :: str "ubdomain " := by decide
  rw [this]
  simp

/-! ## Lemmas on the hexadecimal encoding -/

theorem hexByte_digits (b : Nat) :
    ∃ hi lo, hexByte b = [hi, lo] ∧ isLowerHex hi = true ∧ isLowerHex lo = true ∧
      16 * unhexDigit hi + unhexDigit lo = b % 256 := by
  have key : ∀ d, d < 16 → isLowerHex (hexDigit d) = true ∧ unhexDigit (hexDigit d) = d := by
    decide
  have hshift : (b % 256) >>> 4 = b % 256 / 16 := by simp [Nat.shiftRight_eq_div_pow]
  have hand : (b % 256) &&& 0x0F = b % 256 % 16 := by
    simpa using Nat.and_pow_two_sub_one_eq_mod (b % 256) 4
  have hlt : b % 256 / 16 < 16 := by omega
  have hlt2 : b % 256 % 16 < 16 := by omega
  refine ⟨_, _, rfl, ?_, ?_, ?_⟩
  · rw [hshift]; exact (key _ hlt).1
  · rw [hand]; exact (key _ hlt2).1
  · rw [hshift, hand, (key _ hlt).2, (key _ hlt2).2]
    omega

theorem randRead_four (rnd : List Nat) (h : rnd.length = 4) : randRead 4 rnd = rnd := by
  unfold randRead
  rw [List.take_append_of_le_length (by omega), List.take_of_length_le (by omega)]

theorem hexEncodeToString_length (src : List Nat) :
    (hexEncodeToString src).length = 2 * src.length := by
  induction src with
  | nil => rfl
  | cons b t ih =>
    simp only [hexEncodeToString, List.flatMap_cons, List.length_append, List.length_cons] at ih ⊢
    rw [ih]
    simp [hexByte]
    omega

theorem hexEncodeToString_hex (src : List Nat) :
    ∀ c ∈ hexEncodeToString src, isLowerHex c = true := by
  induction src with
  | nil => intro c hc; simp [hexEncodeToString] at hc
  | cons b t ih =>
    intro c hc
    simp only [hexEncodeToString, List.flatMap_cons, List.mem_append] at hc ih
    rcases hc with hc | hc
    · obtain ⟨hi, lo, he, h1, h2, _⟩ := hexByte_digits b
      rw [he] at hc
      simp at hc
      rcases hc with rfl | rfl <;> assumption
    · exact ih c hc

/-- Byte strings of the same length with the same hexadecimal text are
equal. -/
theorem hexEncodeToString_inj (s1 s2 : List Nat) (h1 : ∀ b ∈ s1, b < 256)
    (h2 : ∀ b ∈ s2, b < 256) (hlen : s1.length = s2.length)
    (h : hexEncodeToString s1 = hexEncodeToString s2) : s1 = s2 := by
  induction s1 generalizing s2 with
  | nil =>
    cases s2 with
    | nil => rfl
    | cons b t => simp at hlen
  | cons a t ih =>
    cases s2 with
    | nil => simp at hlen
    | cons b u =>
      obtain ⟨ha1, ha2, hea, _, _, hva⟩ := hexByte_digits a
      obtain ⟨hb1, hb2, heb, _, _, hvb⟩ := hexByte_digits b
      simp only [hexEncodeToString, List.flatMap_cons, hea, heb, List.cons_append,
        List.nil_append, List.cons.injEq] at h
      obtain ⟨e1, e2, e3⟩ := h
      have hab : a = b := by
        have := h1 a (by simp)
        have := h2 b (by simp)
        rw [e1, e2] at hva
        omega
      rw [hab, ih u (fun x hx => h1 x (by simp [hx])) (fun x hx => h2 x (by simp [hx]))
        (by simpa using hlen) e3]

/-! ## Lemmas on the JSON encoder -/

theorem acceptLo_ge (s0 : Nat) : 0x80 ≤ acceptLo s0 := by
  unfold acceptLo
  split_ifs <;> omega

theorem decodeRune_width (s : GoString) : (decodeRune s).2 ≤ 4 := by
  rcases s with _ | ⟨s0, _ | ⟨s1, _ | ⟨s2, _ | ⟨s3, t3⟩⟩⟩⟩ <;>
    simp only [decodeRune] <;>
    (try split_ifs) <;> simp

/-- The bytes `decodeRune` counts into a rune that starts with a byte of
`0x80` or more are all `0x80` or more. -/
theorem decodeRune_multibyte (s0 : Nat) (t : GoString) (h0 : 0x80 ≤ s0) :
    ∀ x ∈ (s0 :: t).take (decodeRune (s0 :: t)).2, 0x80 ≤ x := by
  have hlt : ¬ s0 < 0x80 := by omega
  have hlo := acceptLo_ge s0
  rcases t with _ | ⟨s1, _ | ⟨s2, _ | ⟨s3, t3⟩⟩⟩ <;>
    simp only [decodeRune, if_neg hlt] <;>
    split_ifs <;>
    (intro x hx
     simp only [List.take_succ_cons, List.take_zero, List.mem_cons, List.mem_nil_iff,
       or_false, List.not_mem_nil] at hx
     omega)

theorem hexDigit_ge (n : Nat) : 0x30 ≤ hexDigit n := by
  unfold hexDigit
  split_ifs <;> omega

/-- A JSON string literal written by the encoder holds no newline byte. -/
theorem appendStringLoop_no_newline :
    ∀ (fuel : Nat) (s : GoString), 0x0A ∉ appendStringLoop fuel s := by
  intro fuel
  induction fuel with
  | zero => intro s; simp [appendStringLoop]
  | succ fuel ih =>
    intro s
    cases s with
    | nil => simp [appendStringLoop]
    | cons b t =>
      simp only [appendStringLoop]
      by_cases hb : b < 0x80
      · rw [if_pos hb]
        simp only [List.mem_append, not_or]
        refine ⟨?_, ih t⟩
        have h1 := hexDigit_ge (b >>> 4)
        have h2 := hexDigit_ge (b &&& 0xF)
        have e1 : str "\\b" = [0x5C, 0x62] := by decide
        have e2 : str "\\f" = [0x5C, 0x66] := by decide
        have e3 : str "\\n" = [0x5C, 0x6E] := by decide
        have e4 : str "\\r" = [0x5C, 0x72] := by decide
        have e5 : str "\\t" = [0x5C, 0x74] := by decide
        have e6 : str "\\u00" = [0x5C, 0x75, 0x30, 0x30] := by decide
        rw [e1, e2, e3, e4, e5, e6]
        split_ifs with c1 c2 c3 c4 c5 c6 c7
        · simp only [htmlSafe, decide_eq_true_eq] at c1
          simp only [List.mem_singleton]
          omega
        · simp only [List.mem_cons, List.mem_nil_iff, or_false, List.not_mem_nil]
          omega
        all_goals
          simp only [List.mem_cons, List.mem_nil_iff, or_false, List.not_mem_nil,
            List.cons_append, List.nil_append]
          omega
      · rw [if_neg hb]
        have hm := decodeRune_multibyte b (t.take 3) (by omega)
        have hw : (b :: t).take 4 = b :: t.take 3 := rfl
        rw [hw]
        have e1 : str "\\ufffd" = [0x5C, 0x75, 0x66, 0x66, 0x66, 0x64] := by decide
        have e2 : str "\\u202" = [0x5C, 0x75, 0x32, 0x30, 0x32] := by decide
        have h2 := hexDigit_ge ((decodeRune (b :: t.take 3)).1 &&& 0xF)
        rw [e1, e2]
        split_ifs
        · simp only [List.mem_append, List.mem_cons, List.mem_nil_iff, or_false, not_or]
          exact ⟨by omega, ih t⟩
        · simp only [List.mem_append, List.mem_cons, List.mem_nil_iff, or_false, not_or,
            List.not_mem_nil]
          exact ⟨⟨by omega, by omega⟩, ih _⟩
        · simp only [List.mem_append, not_or]
          refine ⟨?_, ih _⟩
          intro hx
          have hsub : ∀ x ∈ (b :: t).take (decodeRune (b :: t.take 3)).2, 0x80 ≤ x := by
            intro x hx
            have key : ∀ k, k ≤ 4 → (b :: t.take 3).take k = (b :: t).take k := by
              intro k hk
              show ((b :: t).take 4).take k = _
              rw [List.take_take, Nat.min_eq_left hk]
            apply hm x
            rw [key _ (decodeRune_width _)]
            exact hx
          have := hsub _ hx
          omega

theorem jsonString_no_newline (s : GoString) : 0x0A ∉ jsonString s := by
  unfold jsonString
  simp only [List.mem_append, List.mem_singleton, not_or]
  exact ⟨⟨by omega, appendStringLoop_no_newline _ _⟩, by omega⟩

/-! ## Lemmas on the decoder -/

theorem ScanOut.shift_shiftBy (k : Nat) (o : ScanOut) :
    (o.shiftBy k).shift = o.shiftBy (k + 1) := by
  cases o <;> simp [ScanOut.shiftBy, ScanOut.shift]
  omega

theorem ScanOut.shiftBy_zero (o : ScanOut) : o.shiftBy 0 = o := by
  cases o <;> simp [ScanOut.shiftBy]

theorem ScanOut.andThen_shift (o : ScanOut) (k : Nat) (f : Scanner → ScanOut) :
    (o.andThen k f).shift = o.shift.andThen (k + 1) f := by
  cases o with
  | ended n => rfl
  | failed => rfl
  | more s1 =>
    simp only [ScanOut.andThen, ScanOut.shift]
    exact ScanOut.shift_shiftBy k (f s1)

theorem scanBytes_cons (s : Scanner) (c : Nat) (t : List Nat) :
    scanBytes s (c :: t) =
      match (s.next c).2 with
      | .scanEnd => .ended 0
      | .scanError => .failed
      | .scanEndObject | .scanEndArray =>
        if (stateEndValue (s.next c).1 0x20).2 = .scanEnd then .ended 1
        else (scanBytes (stateEndValue (s.next c).1 0x20).1 t).shift
      | _ => (scanBytes (s.next c).1 t).shift := by
  rw [scanBytes]

/-- Scanning a run of bytes in two parts gives what scanning it at once
gives: the scanner carries its state from one read to the next. -/
theorem scanBytes_append (a b : List Nat) :
    ∀ s, scanBytes s (a ++ b) = (scanBytes s a).andThen a.length (fun s1 => scanBytes s1 b) := by
  induction a with
  | nil => intro s; simp [scanBytes, ScanOut.andThen, ScanOut.shiftBy_zero]
  | cons c t ih =>
    intro s
    rw [List.cons_append, scanBytes_cons, scanBytes_cons]
    cases hcode : (s.next c).2 <;> simp only [List.length_cons]
    all_goals first
      | rfl
      | (rw [ih, ScanOut.andThen_shift]
         done)
      | (by_cases hend : (stateEndValue (s.next c).1 0x20).2 = .scanEnd
         · rw [if_pos hend, if_pos hend]
           rfl
         · rw [if_neg hend, if_neg hend, ih, ScanOut.andThen_shift])

theorem scanBytes_ended_le (l : List Nat) :
    ∀ s n, scanBytes s l = .ended n → n ≤ l.length := by
  induction l with
  | nil => intro s n h; simp [scanBytes] at h
  | cons c t ih =>
    intro s n h
    rw [scanBytes_cons] at h
    have aux : ∀ s1, (scanBytes s1 t).shift = .ended n → n ≤ (c :: t).length := by
      intro s1 h1
      cases hs : scanBytes s1 t with
      | ended m =>
        rw [hs] at h1
        simp only [ScanOut.shift, ScanOut.ended.injEq] at h1
        have := ih s1 m hs
        simp only [List.length_cons]
        omega
      | failed => rw [hs] at h1; simp [ScanOut.shift] at h1
      | more s2 => rw [hs] at h1; simp [ScanOut.shift] at h1
    cases hcode : (s.next c).2 <;> rw [hcode] at h <;> simp only [] at h <;>
      first
        | exact aux _ h
        | (simp only [ScanOut.ended.injEq] at h; subst h; simp)
        | (exact absurd h (by simp))
        | (split at h
           · simp only [ScanOut.ended.injEq] at h; subst h; simp
           · exact aux _ h)

theorem Conn.read_cons (piece : List Nat) (rest : Conn) (n : Nat) :
    ∃ got conn1, Conn.read (piece :: rest) n = some (got, conn1) ∧
      Conn.bytes (piece :: rest) = got ++ Conn.bytes conn1 ∧ got.length ≤ n ∧
      (0 < n → Conn.size conn1 < Conn.size (piece :: rest)) ∧
      (piece.length ≤ n → conn1 = rest) := by
  by_cases h : piece.length ≤ n
  · refine ⟨piece, rest, by simp [Conn.read, h], by simp [Conn.bytes], h, ?_, fun _ => rfl⟩
    intro _
    simp [Conn.size]
  · refine ⟨piece.take n, piece.drop n :: rest, by simp [Conn.read, h], ?_, ?_, ?_, ?_⟩
    · simp [Conn.bytes, ← List.append_assoc]
    · simp
    · intro hn
      simp only [Conn.size, List.map_cons, List.sum_cons, List.length_drop]
      omega
    · intro hle
      exact absurd hle h

/-- The read loop ends within its fuel when the decoder offers room at every
read, and what it returns depends on the bytes of the connection, not on how
they are cut into reads, except for the place where the bytes after the value
are divided between the buffer of the decoder and the connection. -/
theorem readLoop_spec (grow : Nat → Nat → Nat)
    (hroom : ∀ cap len, len ≤ cap → len < grow cap len) :
    ∀ (fuel : Nat) (s : Scanner) (buf : GoString) (cap : Nat) (conn : Conn),
      conn.size < fuel → buf.length ≤ cap →
      ∃ r, readLoop grow fuel s buf cap conn = some r ∧ ReadSpec s buf conn r := by
  intro fuel
  induction fuel with
  | zero => intro s buf cap conn h; omega
  | succ fuel ih =>
    intro s buf cap conn hfuel hcap
    cases conn with
    | nil =>
      by_cases hend : (s.next 0x20).2 = .scanEnd
      · refine ⟨.ok buf [] [], by simp only [readLoop, Conn.read, if_pos hend], ?_⟩
        simp only [ReadSpec, Conn.bytes, List.flatten_nil, scanBytes, List.append_nil, if_pos hend]
      · refine ⟨.fail [], by simp only [readLoop, Conn.read, if_neg hend], ?_⟩
        simp only [ReadSpec, Conn.bytes, List.flatten_nil, scanBytes, List.append_nil, if_neg hend]
    | cons piece rest =>
      have hfree := hroom cap buf.length hcap
      simp only [readLoop]
      generalize grow cap buf.length = cap1 at hfree ⊢
      obtain ⟨got, conn1, hread, hbytes, hgot, hsize, hwhole⟩ :=
        Conn.read_cons piece rest (cap1 - buf.length)
      have hsize1 := hsize (by omega)
      simp only [hread]
      unfold ReadSpec
      rw [hbytes, scanBytes_append]
      cases hscan : scanBytes s got with
      | ended n =>
        have hn := scanBytes_ended_le got s n hscan
        refine ⟨_, rfl, ?_⟩
        simp only [ScanOut.andThen]
        refine ⟨got.drop n, conn1, ?_, ?_⟩
        · rw [List.take_append_of_le_length hn]
        · rw [List.drop_append_of_le_length hn]
      | failed =>
        exact ⟨_, rfl, conn1, rfl⟩
      | more s1 =>
        obtain ⟨r, hr, hspec⟩ := ih s1 (buf ++ got) cap1 conn1 (by omega)
          (by simp only [List.length_append]; omega)
        refine ⟨r, hr, ?_⟩
        simp only [ScanOut.andThen]
        unfold ReadSpec at hspec
        cases hscan1 : scanBytes s1 conn1.bytes with
        | ended m =>
          rw [hscan1] at hspec
          obtain ⟨buffered, rest1, h1, h2⟩ := hspec
          simp only [ScanOut.shiftBy]
          refine ⟨buffered, rest1, ?_, ?_⟩
          · rw [h1, List.take_append, List.append_assoc]
          · rw [List.drop_append, h2]
        | failed =>
          rw [hscan1] at hspec
          simpa [ScanOut.shiftBy] using hspec
        | more s2 =>
          rw [hscan1] at hspec
          simpa [ScanOut.shiftBy, List.append_assoc] using hspec

/-- On a connection whose bytes start with a complete JSON value of `n`
bytes, `readValue` returns these `n` bytes, and the bytes after them are
what it left in the buffer followed by what is left on the connection. -/
theorem readValue_spec (grow : Nat → Nat → Nat)
    (hroom : ∀ cap len, len ≤ cap → len < grow cap len) (conn : Conn) (n : Nat)
    (hvalue : firstValueEnd conn.bytes = some n) :
    ∃ buffered rest, readValue grow conn = some (.ok (conn.bytes.take n) buffered rest) ∧
      conn.bytes.drop n = buffered ++ rest.bytes := by
  obtain ⟨r, hr, hspec⟩ :=
    readLoop_spec grow hroom (conn.size + 1) Scanner.reset [] 0 conn (Nat.lt_succ_self _)
      (Nat.le_refl _)
  unfold ReadSpec at hspec
  unfold firstValueEnd at hvalue
  unfold readValue
  cases hscan : scanBytes Scanner.reset conn.bytes with
  | ended m =>
    rw [hscan] at hspec hvalue
    simp only [Option.some.injEq] at hvalue
    subst hvalue
    obtain ⟨buffered, rest, h1, h2⟩ := hspec
    exact ⟨buffered, rest, by rw [hr, h1]; rfl, h2⟩
  | failed =>
    rw [hscan] at hvalue
    simp at hvalue
  | more s1 =>
    rw [hscan] at hspec hvalue
    by_cases hend : (s1.next 0x20).2 = .scanEnd
    · simp only [if_pos hend, Option.some.injEq] at hvalue hspec
      subst hvalue
      refine ⟨[], [], by rw [hr, hspec]; simp, by simp [Conn.bytes]⟩
    · simp [if_neg hend] at hvalue

theorem refillCap_room (cap len : Nat) (h : len ≤ cap) : len < refillCap cap len := by
  unfold refillCap
  split <;> omega

theorem Conn.reads_one (c c1 : Conn) (n : Nat) (got : List Nat)
    (h : Conn.read c n = some (got, c1)) : Conn.reads c [n] = some ([got], c1) := by
  simp [Conn.reads, h]

theorem Conn.reads_cons (c c1 rest : Conn) (n : Nat) (ns : List Nat) (got : List Nat)
    (gots : List (List Nat)) (h : Conn.read c n = some (got, c1))
    (h1 : Conn.reads c1 ns = some (gots, rest)) :
    Conn.reads c (n :: ns) = some (got :: gots, rest) := by
  simp [Conn.reads, h, h1]

/-- The reads behind a value that `readLoop` returns.  Unless the connection
has ended at once, the decoder made a sequence of reads, each with room for
at least one byte; the value and the bytes left in the buffer are what was in
the buffer before followed by what these reads returned; the value was not
complete before the last of them; the bytes left in the buffer are bytes of
the last read; and the connection afterwards is the connection after these
reads. -/
theorem readLoop_trace (grow : Nat → Nat → Nat)
    (hroom : ∀ cap len, len ≤ cap → len < grow cap len) :
    ∀ (fuel : Nat) (s : Scanner) (buf : GoString) (cap : Nat) (conn : Conn)
      (value buffered : GoString) (rest : Conn),
      buf.length ≤ cap →
      readLoop grow fuel s buf cap conn = some (.ok value buffered rest) →
      (conn = [] ∧ rest = [] ∧ buffered = [] ∧ value = buf) ∨
      ∃ sizes earlier last,
        (∀ m ∈ sizes, 0 < m) ∧
        Conn.reads conn sizes = some (earlier ++ [last], rest) ∧
        (∃ s1, scanBytes s earlier.flatten = .more s1) ∧
        value ++ buffered = buf ++ (earlier ++ [last]).flatten ∧
        buffered.length ≤ last.length := by
  intro fuel
  induction fuel with
  | zero => intro s buf cap conn value buffered rest _ h; simp [readLoop] at h
  | succ fuel ih =>
    intro s buf cap conn value buffered rest hcap h
    cases conn with
    | nil =>
      left
      simp only [readLoop, Conn.read] at h
      split at h
      · simp only [Option.some.injEq, ReadResult.ok.injEq] at h
        obtain ⟨h1, h2, h3⟩ := h
        exact ⟨rfl, h3.symm, h2.symm, h1.symm⟩
      · simp at h
    | cons piece rest0 =>
      right
      have hfree := hroom cap buf.length hcap
      simp only [readLoop] at h
      generalize grow cap buf.length = cap1 at hfree h
      obtain ⟨got, conn1, hread, hbytes, hgot, hsize, hwhole⟩ :=
        Conn.read_cons piece rest0 (cap1 - buf.length)
      simp only [hread] at h
      cases hscan : scanBytes s got with
      | ended n =>
        simp only [hscan, Option.some.injEq, ReadResult.ok.injEq] at h
        obtain ⟨h1, h2, h3⟩ := h
        subst h1 h2 h3
        refine ⟨[cap1 - buf.length], [], got, ?_, Conn.reads_one _ _ _ _ hread,
          ⟨s, by simp [scanBytes]⟩, ?_, ?_⟩
        · intro m hm
          simp only [List.mem_singleton] at hm
          omega
        · simp [List.append_assoc]
        · simp
      | failed => simp [hscan] at h
      | more s1 =>
        simp only [hscan] at h
        rcases ih s1 (buf ++ got) cap1 conn1 value buffered rest
            (by simp only [List.length_append]; omega) h with
          ⟨hc, hr, hb, hv⟩ | ⟨sizes, earlier, last, hpos, hreads, ⟨s2, hs2⟩, hcat, hlen⟩
        · subst hc hr hb hv
          refine ⟨[cap1 - buf.length], [], got, ?_, Conn.reads_one _ _ _ _ hread,
            ⟨s, by simp [scanBytes]⟩, by simp, by simp⟩
          intro m hm
          simp only [List.mem_singleton] at hm
          omega
        · refine ⟨(cap1 - buf.length) :: sizes, got :: earlier, last, ?_,
            Conn.reads_cons _ _ _ _ _ _ _ hread hreads, ⟨s2, ?_⟩, ?_, hlen⟩
          · intro m hm
            simp only [List.mem_cons] at hm
            rcases hm with rfl | hm
            · omega
            · exact hpos m hm
          · rw [List.flatten_cons, scanBytes_append, hscan]
            simp [ScanOut.andThen, hs2, ScanOut.shiftBy]
          · rw [hcat]
            simp [List.append_assoc]

theorem Conn.reads_cons_inv (c rest : Conn) (n : Nat) (ns : List Nat) (gots : List (List Nat))
    (h : Conn.reads c (n :: ns) = some (gots, rest)) :
    ∃ got c1 gots1, Conn.read c n = some (got, c1) ∧ Conn.reads c1 ns = some (gots1, rest) ∧
      gots = got :: gots1 := by
  simp only [Conn.reads] at h
  cases hr : Conn.read c n with
  | none => simp [hr] at h
  | some r =>
    obtain ⟨got, c1⟩ := r
    simp only [hr, Option.map_eq_some', Prod.mk.injEq] at h
    obtain ⟨⟨gots1, rest1⟩, h1, h2, h3⟩ := h
    simp only at h2 h3
    subst h2 h3
    exact ⟨got, c1, gots1, rfl, h1, rfl⟩

theorem Conn.reads_nil_inv (c rest : Conn) (ns : List Nat)
    (h : Conn.reads c ns = some ([], rest)) : rest = c := by
  cases ns with
  | nil =>
    simp only [Conn.reads, Option.some.injEq, Prod.mk.injEq] at h
    exact h.2.symm
  | cons n ns =>
    obtain ⟨got, c1, gots1, _, _, h3⟩ := Conn.reads_cons_inv c rest n ns [] h
    simp at h3

/-- A read from a connection that starts with the pieces `p :: front` and
goes on with the pieces `back` returns bytes of `p` only and leaves `back`
untouched. -/
theorem Conn.read_append (p : List Nat) (front back c1 : Conn) (n : Nat) (got : List Nat)
    (h : Conn.read ((p :: front) ++ back) n = some (got, c1)) :
    ∃ front1, c1 = front1 ++ back ∧ Conn.bytes (p :: front) = got ++ Conn.bytes front1 := by
  simp only [List.cons_append, Conn.read] at h
  split at h
  · simp only [Option.some.injEq, Prod.mk.injEq] at h
    obtain ⟨h1, h2⟩ := h
    subst h1 h2
    exact ⟨front, rfl, by simp [Conn.bytes]⟩
  · simp only [Option.some.injEq, Prod.mk.injEq] at h
    obtain ⟨h1, h2⟩ := h
    subst h1 h2
    exact ⟨p.drop n :: front, rfl, by simp [Conn.bytes, ← List.append_assoc]⟩

/-- Reads that, before the last one, have not used up the bytes of the pieces
`front` leave the pieces `back` behind them untouched. -/
theorem Conn.reads_within (back : Conn) (last : List Nat) (rest : Conn) :
    ∀ (earlier : List (List Nat)) (sizes : List Nat) (front : Conn),
      Conn.reads (front ++ back) sizes = some (earlier ++ [last], rest) →
      earlier.flatten.length < (Conn.bytes front).length →
      ∃ tail, rest = tail ++ back := by
  intro earlier
  induction earlier with
  | nil =>
    intro sizes front h hlt
    cases sizes with
    | nil => simp [Conn.reads] at h
    | cons n ns =>
      obtain ⟨got, c1, gots1, hread, hreads, hg⟩ := Conn.reads_cons_inv _ _ _ _ _ h
      simp only [List.nil_append, List.cons.injEq] at hg
      obtain ⟨_, hg1⟩ := hg
      subst hg1
      have hrest := Conn.reads_nil_inv c1 rest ns hreads
      cases front with
      | nil => simp [Conn.bytes] at hlt
      | cons p front =>
        obtain ⟨front1, hc1, _⟩ := Conn.read_append p front back c1 n got hread
        exact ⟨front1, by rw [hrest, hc1]⟩
  | cons e es ih =>
    intro sizes front h hlt
    cases sizes with
    | nil => simp [Conn.reads] at h
    | cons n ns =>
      obtain ⟨got, c1, gots1, hread, hreads, hg⟩ := Conn.reads_cons_inv _ _ _ _ _ h
      simp only [List.cons_append, List.cons.injEq] at hg
      obtain ⟨hg0, hg1⟩ := hg
      subst hg0 hg1
      cases front with
      | nil => simp [Conn.bytes] at hlt
      | cons p front =>
        obtain ⟨front1, hc1, hb⟩ := Conn.read_append p front back c1 n e hread
        rw [hc1] at hreads
        refine ih ns front1 hreads ?_
        rw [hb] at hlt
        simp only [List.flatten_cons, List.length_append] at hlt
        omega

theorem Conn.reads_bytes (sizes : List Nat) :
    ∀ (c rest : Conn) (gots : List (List Nat)),
      Conn.reads c sizes = some (gots, rest) → gots.flatten ++ Conn.bytes rest = Conn.bytes c := by
  induction sizes with
  | nil =>
    intro c rest gots h
    simp only [Conn.reads, Option.some.injEq, Prod.mk.injEq] at h
    obtain ⟨h1, h2⟩ := h
    subst h1 h2
    rfl
  | cons n ns ih =>
    intro c rest gots h
    obtain ⟨got, c1, gots1, hread, hreads, hg⟩ := Conn.reads_cons_inv _ _ _ _ _ h
    subst hg
    have h1 := ih c1 rest gots1 hreads
    cases c with
    | nil => simp [Conn.read] at hread
    | cons p c0 =>
      obtain ⟨got1, conn1, hread1, hbytes, _⟩ := Conn.read_cons p c0 n
      rw [hread] at hread1
      simp only [Option.some.injEq, Prod.mk.injEq] at hread1
      obtain ⟨e1, e2⟩ := hread1
      subst e1 e2
      rw [hbytes, List.flatten_cons, List.append_assoc, h1]

theorem firstValueEnd_nil : firstValueEnd [] = none := by decide

/-- The pieces of the connection behind those in which the scanner finds the
end of the value are still on the connection when `readValue` returns. -/
theorem readValue_delivers (grow : Nat → Nat → Nat)
    (hroom : ∀ cap len, len ≤ cap → len < grow cap len) (front back : Conn)
    (value buffered : GoString) (rest : Conn) (m : Nat)
    (hfront : scanBytes Scanner.reset (Conn.bytes front) = .ended m)
    (h : readValue grow (front ++ back) = some (.ok value buffered rest)) :
    ∃ tail, rest = tail ++ back := by
  unfold readValue at h
  rcases readLoop_trace grow hroom _ _ _ _ _ _ _ _ (Nat.le_refl _) h with
    ⟨hc, hr, _, _⟩ | ⟨sizes, earlier, last, _, hreads, ⟨s1, hs1⟩, _, _⟩
  · have hf : front = [] := List.append_eq_nil.1 hc |>.1
    rw [hf] at hfront
    simp [Conn.bytes, scanBytes] at hfront
  · refine Conn.reads_within back last rest earlier sizes front hreads ?_
    by_contra hge
    have hb := Conn.reads_bytes sizes _ _ _ hreads
    have hp1 : earlier.flatten <+: Conn.bytes (front ++ back) :=
      ⟨last ++ Conn.bytes rest, by rw [← hb]; simp [List.append_assoc]⟩
    have hp2 : Conn.bytes front <+: Conn.bytes (front ++ back) :=
      ⟨Conn.bytes back, by simp [Conn.bytes]⟩
    obtain ⟨x, hx⟩ := List.prefix_of_prefix_length_le hp2 hp1 (by omega)
    rw [← hx, scanBytes_append, hfront] at hs1
    simp [ScanOut.andThen] at hs1

/-- When the first read returns a whole piece and the scanner finds the end
of the value in it, `readValue` keeps the rest of that piece in the buffer
and leaves the other pieces on the connection. -/
theorem readValue_first_read (grow : Nat → Nat → Nat) (piece : List Nat) (back : Conn)
    (m : Nat) (hfit : piece.length ≤ grow 0 0)
    (hpiece : scanBytes Scanner.reset piece = .ended m) :
    readValue grow (piece :: back) = some (.ok (piece.take m) (piece.drop m) back) := by
  unfold readValue
  simp [readLoop, Conn.read, hfit, hpiece]

/-! ## Lemmas on the handlers -/

theorem Registry.get?_set (m : Registry) (k : GoString) (t : Tunnel) :
    (m.set k t).get? k = some t := by
  simp [Registry.set, Registry.get?]

theorem Sys.exec_append (wide : Nat → Bool) (cfg : Config) (es fs : List Event) :
    ∀ σ, Sys.exec wide cfg σ (es ++ fs) =
      (Sys.exec wide cfg σ es).bind fun σ1 => Sys.exec wide cfg σ1 fs := by
  induction es with
  | nil => intro σ; rfl
  | cons e es ih =>
    intro σ
    simp only [List.cons_append, Sys.exec]
    cases σ.step wide cfg e with
    | none => rfl
    | some σ1 => simp [ih]

set_option maxHeartbeats 1600000 in
/-- A handler that runs with no other handler in between does, statement
by statement, what `handleNewTunnel` does as a whole. -/
theorem handleNewTunnel_alone (wide : Nat → Bool) (cfg : Config) (tunnels : Registry)
    (env : TunnelEnv) :
    ∃ n, (Sys.exec wide cfg (Sys.init tunnels [env]) (alone n)).map
        (fun σ => (σ.tunnels, σ.mu, σ.handlers.map fun h => (h.sent, h.connClosed, h.tunnel))) =
      some ((handleNewTunnel wide cfg tunnels env).tunnels, none,
        [((handleNewTunnel wide cfg tunnels env).sent,
          (handleNewTunnel wide cfg tunnels env).connClosed,
          (handleNewTunnel wide cfg tunnels env).registered)]) := by
  cases hhs : env.hs with
  | none =>
    refine ⟨1, ?_⟩
    simp [alone, List.replicate, Sys.exec, Sys.step, Sys.init, Handler.init, runHandler,
      handleNewTunnel, hhs]
  | some hs =>
    by_cases hp : (tunnels.get? (if hs.Subdomain = [] then randomSubdomain env.rndSub
        else hs.Subdomain)).isSome = true
    · refine ⟨6, ?_⟩
      simp [alone, List.replicate, Sys.exec, Sys.step, Sys.init, Handler.init, runHandler,
        handleNewTunnel, hhs, hp]
    · cases hsess : env.session with
      | none =>
        refine ⟨6, ?_⟩
        simp [alone, List.replicate, Sys.exec, Sys.step, Sys.init, Handler.init, runHandler,
          handleNewTunnel, hhs, hp, hsess]
      | some session =>
        refine ⟨9, ?_⟩
        simp [alone, List.replicate, Sys.exec, Sys.step, Sys.init, Handler.init, runHandler,
          handleNewTunnel, hhs, hp, hsess]

set_option maxHeartbeats 1600000 in
/-- The first part of the race: both handlers pass the check. -/
theorem race_checks (wide : Nat → Bool) (cfg : Config) (tunnels : Registry)
    (a b : TunnelEnv) (label : GoString) (hlabel : label ≠ [])
    (ha : a.hs = some { Subdomain := label }) (hb : b.hs = some { Subdomain := label })
    (hfree : tunnels.get? label = none) :
    Sys.exec wide cfg (Sys.init tunnels [a, b])
        [.run 0, .run 1, .run 0, .run 0, .run 0, .run 1, .run 1, .run 1] =
      some { tunnels := tunnels, mu := none,
             handlers := [{ Handler.init a with pc := .sendSuccess, subdomain := label },
                          { Handler.init b with pc := .sendSuccess, subdomain := label }] } := by
  simp [Sys.exec, Sys.step, Sys.init, Handler.init, runHandler, ha, hb, hlabel, hfree]

set_option maxHeartbeats 1600000 in
/-- The second part of the race: both handlers answer and insert. -/
theorem race_inserts (wide : Nat → Bool) (cfg : Config) (tunnels : Registry)
    (a b : TunnelEnv) (label : GoString) (sa sb : Nat)
    (hsa : a.session = some sa) (hsb : b.session = some sb) :
    Sys.exec wide cfg
        { tunnels := tunnels, mu := none,
          handlers := [{ Handler.init a with pc := .sendSuccess, subdomain := label },
                       { Handler.init b with pc := .sendSuccess, subdomain := label }] }
        [.run 0, .run 0, .run 0, .run 0, .run 0, .run 1, .run 1, .run 1, .run 1, .run 1] =
      some
        { tunnels :=
            (tunnels.set label
              { ID := randomID a.rndID, Subdomain := label, Conn := a.conn, Session := sa }).set
              label { ID := randomID b.rndID, Subdomain := label, Conn := b.conn, Session := sb }
          mu := none
          handlers :=
            [{ Handler.init a with
               pc := .waitClose, subdomain := label
               sent := [{ Subdomain := label, URL := tunnelURL cfg label }]
               tunnel := some { ID := randomID a.rndID, Subdomain := label, Conn := a.conn,
                                Session := sa } },
             { Handler.init b with
               pc := .waitClose, subdomain := label
               sent := [{ Subdomain := label, URL := tunnelURL cfg label }]
               tunnel := some { ID := randomID b.rndID, Subdomain := label, Conn := b.conn,
                                Session := sb } }] } := by
  simp [Sys.exec, Sys.step, Handler.init, runHandler, hsa, hsb]

/-! ## Lemmas on registration and removal -/

theorem Registry.get?_cons (e : GoString × Tunnel) (m : Registry) (k : GoString) :
    Registry.get? (e :: m) k = if e.1 = k then some e.2 else Registry.get? m k := by
  unfold Registry.get?
  by_cases h : e.1 = k <;> simp [List.find?_cons, h]

theorem Registry.delete_cons (e : GoString × Tunnel) (m : Registry) (k : GoString) :
    Registry.delete (e :: m) k = if e.1 = k then Registry.delete m k else e :: Registry.delete m k := by
  unfold Registry.delete
  by_cases h : e.1 = k <;> simp [List.filter_cons, h]

theorem Registry.get?_delete_self (m : Registry) (k : GoString) :
    (m.delete k).get? k = none := by
  induction m with
  | nil => rfl
  | cons e rest ih =>
    rw [Registry.delete_cons]
    by_cases h : e.1 = k
    · rw [if_pos h]
      exact ih
    · rw [if_neg h, Registry.get?_cons, if_neg h]
      exact ih

theorem Registry.get?_delete_ne (m : Registry) (k k1 : GoString) (h : k1 ≠ k) :
    (m.delete k).get? k1 = m.get? k1 := by
  induction m with
  | nil => rfl
  | cons e rest ih =>
    rw [Registry.delete_cons, Registry.get?_cons]
    by_cases he : e.1 = k
    · have hne : ¬ e.1 = k1 := fun h1 => h (h1 ▸ he)
      rw [if_pos he, if_neg hne]
      exact ih
    · rw [if_neg he, Registry.get?_cons, ih]

theorem randomSubdomain_ne_nil (rnd : List Nat) : randomSubdomain rnd ≠ [] := by
  intro h
  have hl := congrArg List.length h
  unfold randomSubdomain at hl
  rw [hexEncodeToString_length] at hl
  simp [randRead] at hl

theorem chosenLabel_ne_nil (hs : Handshake) (rnd : List Nat) : chosenLabel hs rnd ≠ [] := by
  unfold chosenLabel
  split
  · exact randomSubdomain_ne_nil rnd
  · assumption

/-- What `handleNewTunnel` does when the handshake was read, the label is
free and the session was built: the result of the write of the response does
not enter. -/
theorem handleNewTunnel_free (wide : Nat → Bool) (cfg : Config) (tunnels : Registry)
    (env : TunnelEnv) (hs : Handshake) (s : Nat) (hhs : env.hs = some hs)
    (hfree : tunnels.get? (chosenLabel hs env.rndSub) = none) (hsess : env.session = some s) :
    handleNewTunnel wide cfg tunnels env =
      { tunnels := tunnels.set (chosenLabel hs env.rndSub)
          { ID := randomID env.rndID, Subdomain := chosenLabel hs env.rndSub, Conn := env.conn,
            Session := s }
        sent := [{ Subdomain := chosenLabel hs env.rndSub
                   URL := tunnelURL cfg (chosenLabel hs env.rndSub) }]
        connClosed := false
        registered := some { ID := randomID env.rndID, Subdomain := chosenLabel hs env.rndSub,
                             Conn := env.conn, Session := s } } := by
  unfold chosenLabel at hfree ⊢
  unfold handleNewTunnel
  simp only [hhs, hfree, hsess, Option.isSome_none, Bool.false_eq_true, if_false]

/-- A handler that registers a record does so under a non-empty label, the
label of the record, and the registry it leaves holds the record there. -/
theorem handleNewTunnel_registered (wide : Nat → Bool) (cfg : Config) (tunnels : Registry)
    (env : TunnelEnv) (t : Tunnel)
    (h : (handleNewTunnel wide cfg tunnels env).registered = some t) :
    t.Subdomain ≠ [] ∧
      (handleNewTunnel wide cfg tunnels env).tunnels.get? t.Subdomain = some t := by
  cases hhs : env.hs with
  | none => simp [handleNewTunnel, hhs] at h
  | some hs =>
    cases hfree : tunnels.get? (chosenLabel hs env.rndSub) with
    | some t0 =>
      unfold chosenLabel at hfree
      simp [handleNewTunnel, hhs, hfree] at h
    | none =>
      cases hsess : env.session with
      | none =>
        unfold chosenLabel at hfree
        simp [handleNewTunnel, hhs, hfree, hsess] at h
      | some s =>
        rw [handleNewTunnel_free wide cfg tunnels env hs s hhs hfree hsess] at h ⊢
        simp only [Option.some.injEq] at h
        subst h
        exact ⟨chosenLabel_ne_nil hs env.rndSub, Registry.get?_set _ _ _⟩

/-! ## The claims -/

/-- Claim C1, which the code breaks.  The check of lines 105 to 114 and the
insertion of lines 139 to 141 are two separate locked regions.  For every
label and every registry that does not hold it, two handlers that both
request the label can run so that both pass the check before either inserts:
both send the success response, neither sends a conflict response, both
build a record, and the record of the second replaces the record of the
first in the registry. -/
theorem C1_check_and_insert_not_atomic (wide : Nat → Bool) (cfg : Config) (tunnels : Registry)
    (a b : TunnelEnv) (label : GoString) (sa sb : Nat) (hlabel : label ≠ [])
    (ha : a.hs = some { Subdomain := label }) (hb : b.hs = some { Subdomain := label })
    (hsa : a.session = some sa) (hsb : b.session = some sb)
    (hfree : tunnels.get? label = none) :
    ∃ σ, Sys.exec wide cfg (Sys.init tunnels [a, b]) raceSchedule = some σ ∧
      σ.handlers.map (fun h => (h.pc, h.sent)) =
        [(.waitClose, [{ Subdomain := label, URL := tunnelURL cfg label, Error := [] }]),
         (.waitClose, [{ Subdomain := label, URL := tunnelURL cfg label, Error := [] }])] ∧
      σ.handlers.map (fun h => h.tunnel) =
        [some { ID := randomID a.rndID, Subdomain := label, Conn := a.conn, Session := sa },
         some { ID := randomID b.rndID, Subdomain := label, Conn := b.conn, Session := sb }] ∧
      σ.tunnels.get? label =
        some { ID := randomID b.rndID, Subdomain := label, Conn := b.conn, Session := sb } := by
  have hsplit : raceSchedule =
      [.run 0, .run 1, .run 0, .run 0, .run 0, .run 1, .run 1, .run 1] ++
        [.run 0, .run 0, .run 0, .run 0, .run 0, .run 1, .run 1, .run 1, .run 1, .run 1] := rfl
  rw [hsplit, Sys.exec_append, race_checks wide cfg tunnels a b label hlabel ha hb hfree,
    Option.some_bind, race_inserts wide cfg tunnels a b label sa sb hsa hsb]
  exact ⟨_, rfl, rfl, rfl, Registry.get?_set _ _ _⟩

/-- Claim C1 at the conflict scenario: two clients request `taken` on an
empty registry, and both are answered with success. -/
theorem C1_check_and_insert_not_atomic_witness :
    ∃ σ, Sys.exec noWide scenarioConfig
        (Sys.init []
          [{ conn := 1, hs := some { Subdomain := str "taken" }, rndSub := [], rndID := [1],
             sendErr := false, session := some 1 },
           { conn := 2, hs := some { Subdomain := str "taken" }, rndSub := [], rndID := [2],
             sendErr := false, session := some 2 }])
        raceSchedule = some σ ∧
      σ.handlers.map (fun h => (h.pc, h.sent)) =
        [(.waitClose, [{ Subdomain := str "taken"
                         URL := tunnelURL scenarioConfig (str "taken"), Error := [] }]),
         (.waitClose, [{ Subdomain := str "taken"
                         URL := tunnelURL scenarioConfig (str "taken"), Error := [] }])] ∧
      σ.handlers.map (fun h => h.tunnel) =
        [some { ID := randomID [1], Subdomain := str "taken", Conn := 1, Session := 1 },
         some { ID := randomID [2], Subdomain := str "taken", Conn := 2, Session := 2 }] ∧
      σ.tunnels.get? (str "taken") =
        some { ID := randomID [2], Subdomain := str "taken", Conn := 2, Session := 2 } :=
  C1_check_and_insert_not_atomic noWide scenarioConfig []
    { conn := 1, hs := some { Subdomain := str "taken" }, rndSub := [], rndID := [1],
      sendErr := false, session := some 1 }
    { conn := 2, hs := some { Subdomain := str "taken" }, rndSub := [], rndID := [2],
      sendErr := false, session := some 2 }
    (str "taken") 1 2 (by decide) rfl rfl rfl rfl rfl

/-- Claim C2 as amended.  On a connection whose bytes start with a complete
JSON value of `n` bytes, however the bytes are cut into reads and whatever
room the decoder offers at each read (at least one byte), `ReadHandshake` and
`ReadHandshakeResp` decode these `n` bytes.  The bytes after them are, in
order, the bytes the decoder read ahead (`buffered`, which only the discarded
decoder holds) followed by the bytes still on the connection (`rest`), and
the multiplex session reads the latter only.  Every piece of the connection
behind the pieces in which the end of the value is found is still on the
connection, so it reaches the session whole.  When the first read returns a
whole piece that holds the end of the value, all of that piece after the
value is read ahead and the session starts at the next piece. -/
theorem C2_read_ahead_stays_in_decoder (grow : Nat → Nat → Nat)
    (uh : GoString → Option Handshake) (ur : GoString → Option HandshakeResp)
    (conn : Conn) (n : Nat)
    (hroom : ∀ cap len, len ≤ cap → len < grow cap len)
    (hvalue : firstValueEnd conn.bytes = some n) :
    ∃ buffered rest,
      conn.bytes.drop n = buffered ++ Conn.bytes rest ∧
      (∃ d, ReadHandshake grow uh conn = some d ∧ d.result = uh (conn.bytes.take n) ∧
        d.buffered = buffered ∧ d.conn = rest ∧ sessionInput d = Conn.bytes rest) ∧
      (∃ d, ReadHandshakeResp grow ur conn = some d ∧ d.result = ur (conn.bytes.take n) ∧
        d.buffered = buffered ∧ d.conn = rest ∧ sessionInput d = Conn.bytes rest) ∧
      (∀ front back m, conn = front ++ back →
        scanBytes Scanner.reset (Conn.bytes front) = .ended m →
        ∃ tail, rest = tail ++ back) ∧
      (∀ piece back m, conn = piece :: back → piece.length ≤ grow 0 0 →
        scanBytes Scanner.reset piece = .ended m →
        buffered = piece.drop n ∧ rest = back) := by
  obtain ⟨buffered, rest, h1, h2⟩ := readValue_spec grow hroom conn n hvalue
  refine ⟨buffered, rest, h2, ?_, ?_, ?_, ?_⟩
  · refine ⟨{ result := uh (conn.bytes.take n), buffered := buffered, conn := rest }, ?_,
      rfl, rfl, rfl, rfl⟩
    simp only [ReadHandshake, Decode, h1, Option.map_some']
  · refine ⟨{ result := ur (conn.bytes.take n), buffered := buffered, conn := rest }, ?_,
      rfl, rfl, rfl, rfl⟩
    simp only [ReadHandshakeResp, Decode, h1, Option.map_some']
  · intro front back m hc hfront
    subst hc
    exact readValue_delivers grow hroom front back _ _ _ m hfront h1
  · intro piece back m hc hfit hpiece
    subst hc
    have hfirst := readValue_first_read grow piece back m hfit hpiece
    rw [h1] at hfirst
    simp only [Option.some.injEq, ReadResult.ok.injEq] at hfirst
    obtain ⟨_, hb, hr⟩ := hfirst
    have hscan : scanBytes Scanner.reset (Conn.bytes (piece :: back)) = .ended m := by
      have : Conn.bytes (piece :: back) = piece ++ Conn.bytes back := by simp [Conn.bytes]
      rw [this, scanBytes_append, hpiece]
      rfl
    have hnm : n = m := by
      unfold firstValueEnd at hvalue
      rw [hscan] at hvalue
      simp only [Option.some.injEq] at hvalue
      exact hvalue.symm
    rw [hnm]
    exact ⟨hb, hr⟩

/-- Claim C2 as amended, on a connection that delivers the handshake of the
client in one read and a frame in the next: the decoder of Go 1.22 keeps the
newline, and the session reads the frame. -/
theorem C2_read_ahead_stays_in_decoder_witness :
    (ReadHandshake refillCap unmarshalHandshake
        [SendHandshake { Subdomain := str "demo" }, yamuxSyn]).map
        (fun d => (d.result, d.buffered, sessionInput d)) =
      some (some { Subdomain := str "demo" }, str "\n", yamuxSyn) ∧
    ∃ buffered rest,
      (Conn.bytes [SendHandshake { Subdomain := str "demo" }, yamuxSyn]).drop 20 =
        buffered ++ Conn.bytes rest ∧
      (∃ d, ReadHandshake refillCap unmarshalHandshake
            [SendHandshake { Subdomain := str "demo" }, yamuxSyn] = some d ∧
        d.buffered = buffered ∧ d.conn = rest) ∧
      (∃ tail, rest = tail ++ [yamuxSyn]) ∧
      buffered = (SendHandshake { Subdomain := str "demo" }).drop 20 ∧ rest = [yamuxSyn] :=
  ⟨by decide,
    match C2_read_ahead_stays_in_decoder refillCap unmarshalHandshake unmarshalResp
        [SendHandshake { Subdomain := str "demo" }, yamuxSyn] 20
        refillCap_room (by decide) with
    | ⟨buffered, rest, h1, ⟨d, hd, _, hb, hc, _⟩, _, h4, h5⟩ =>
      ⟨buffered, rest, h1, ⟨d, hd, hb, hc⟩,
        h4 [SendHandshake { Subdomain := str "demo" }] [yamuxSyn] 20 rfl (by decide),
        h5 (SendHandshake { Subdomain := str "demo" }) [yamuxSyn] 20 rfl (by decide)
          (by decide)⟩⟩

/-- Claim C2 as stated fails.  The success response and the first frame of
the session arrive in one read: the response is 55 bytes of JSON, after it
come the newline of the encoder and the 12 bytes of the frame, and the session
on the raw connection gets none of these 13 bytes.  The same happens to what
follows the handshake read by the server. -/
theorem C2_bytes_in_same_read_are_lost :
    Conn.bytes [SendHandshakeResp demoResp ++ yamuxSyn] =
      str "\x7b\"subdomain\":\"demo\",\"url\":\"http://demo.localhost:8080\"\x7d" ++
        (str "\n" ++ yamuxSyn) ∧
    firstValueEnd (Conn.bytes [SendHandshakeResp demoResp ++ yamuxSyn]) = some 55 ∧
    (ReadHandshakeResp refillCap unmarshalResp [SendHandshakeResp demoResp ++ yamuxSyn]).map
        (fun d => (d.result, d.buffered, sessionInput d)) =
      some (some demoResp, str "\n" ++ yamuxSyn, []) ∧
    (ReadHandshake refillCap unmarshalHandshake
        [SendHandshake { Subdomain := str "demo" } ++ yamuxSyn]).map
        (fun d => (d.result, d.buffered, sessionInput d)) =
      some (some { Subdomain := str "demo" }, str "\n" ++ yamuxSyn, []) := by
  decide

/-- Claim C3 as amended.  For every registry and every non-empty requested
label that is present in it, `handleNewTunnel` sends one response with empty
subdomain, empty url and the error `subdomain `, the label as `%q` prints
it, ` is already in use`; for a label of printable ASCII without `"` and `\`
that is the label itself between double quotes; the error contains
`already in use`; the registry is unchanged, no record is created and the
connection is closed. -/
theorem C3_conflict_response (wide : Nat → Bool) (cfg : Config) (tunnels : Registry)
    (env : TunnelEnv) (label : GoString) (hlabel : label ≠ [])
    (hhs : env.hs = some { Subdomain := label })
    (hpresent : (tunnels.get? label).isSome = true) :
    (handleNewTunnel wide cfg tunnels env).sent =
        [{ Subdomain := [], URL := []
           Error := str "subdomain " ++ Quote wide label ++ str " is already in use" }] ∧
      (plainLabel label = true →
        Quote wide label = str "\"" ++ label ++ str "\"") ∧
      (∃ pre post, str "subdomain " ++ Quote wide label ++ str " is already in use" =
        pre ++ str "already in use" ++ post) ∧
      (handleNewTunnel wide cfg tunnels env).tunnels = tunnels ∧
      (handleNewTunnel wide cfg tunnels env).registered = none ∧
      (handleNewTunnel wide cfg tunnels env).connClosed = true := by
  have hrun : handleNewTunnel wide cfg tunnels env =
      { tunnels := tunnels, sent := [{ Error := conflictError wide label }],
        connClosed := true, registered := none } := by
    unfold handleNewTunnel
    simp only [hhs, if_neg hlabel, hpresent, if_true]
  rw [hrun]
  refine ⟨rfl, Quote_plain wide label, ?_, rfl, rfl, rfl⟩
  exact (Contains_iff _ _).1 (conflictError_contains wide label)

/-- Claim C3 as amended, at the conflict scenario: `taken` is registered and
requested again. -/
theorem C3_conflict_response_witness :
    (handleNewTunnel noWide scenarioConfig [(str "taken", recordFor (str "taken"))]
        { conn := 2, hs := some { Subdomain := str "taken" }, rndSub := [], rndID := [],
          sendErr := false, session := some 2 }).sent =
      [{ Subdomain := [], URL := [], Error := str "subdomain \"taken\" is already in use" }] := by
  have h := (C3_conflict_response noWide scenarioConfig [(str "taken", recordFor (str "taken"))]
    { conn := 2, hs := some { Subdomain := str "taken" }, rndSub := [], rndID := [],
      sendErr := false, session := some 2 } (str "taken") (by decide) rfl (by decide))
  rw [h.1, h.2.1 (by decide)]
  decide

/-- Claim C3 as stated fails for a label with a double quote: the label
`a"b` is registered and requested again, and the error text holds `a\"b`
between the quotes, not the label itself. -/
theorem C3_quote_in_label_is_escaped :
    (handleNewTunnel noWide scenarioConfig [(str "a\"b", recordFor (str "a\"b"))]
        { conn := 2, hs := some { Subdomain := str "a\"b" }, rndSub := [], rndID := [],
          sendErr := false, session := some 2 }).sent =
      [{ Subdomain := [], URL := [], Error := str "subdomain \"a\\\"b\" is already in use" }] ∧
    str "subdomain \"a\\\"b\" is already in use" ≠
      str "subdomain \"" ++ str "a\"b" ++ str "\" is already in use" := by
  decide

/-- Claim C4.  When `Connect` has read a handshake response with a non-empty
error field, it returns an error whose kind is `ErrSubdomainTaken` exactly
when the field contains `already in use`, and `ErrServerUnreachable`
otherwise; and the conflict message the server formats for any label is
classified as `ErrSubdomainTaken`. -/
theorem C4_classify_response_error (cfg : ClientConfig) (env : ConnectEnv) (resp : HandshakeResp)
    (hlocal : env.localDialErr = false) (hdial : env.serverDialErr = false)
    (hsend : env.sendErr = false) (hresp : env.resp = some resp) (herr : resp.Error ≠ []) :
    (∃ e, Connect cfg env = some e ∧
      (e.Kind = .ErrSubdomainTaken ↔
        ∃ pre post, resp.Error = pre ++ str "already in use" ++ post) ∧
      (e.Kind ≠ .ErrSubdomainTaken → e.Kind = .ErrServerUnreachable)) ∧
    ∀ (wide : Nat → Bool) (label : GoString), resp.Error = conflictError wide label →
      Connect cfg env =
        some { Kind := .ErrSubdomainTaken, Addr := cfg.Subdomain, Detail := cfg.Subdomain } := by
  have hrun : Connect cfg env =
      if Contains resp.Error (str "already in use") then
        some { Kind := .ErrSubdomainTaken, Addr := cfg.Subdomain, Detail := cfg.Subdomain }
      else some { Kind := .ErrServerUnreachable, Addr := cfg.ServerAddr, Detail := resp.Error } := by
    unfold Connect
    simp [hlocal, hdial, hsend, hresp, herr]
  constructor
  · by_cases hc : Contains resp.Error (str "already in use") = true
    · refine ⟨_, by rw [hrun, if_pos hc], ?_, ?_⟩
      · simpa using (Contains_iff _ _).1 hc
      · simp
    · refine ⟨_, by rw [hrun, if_neg hc], ?_, ?_⟩
      · constructor
        · intro h
          cases h
        · intro h
          exact absurd ((Contains_iff _ _).2 h) hc
      · simp
  · intro wide label hl
    rw [hrun, hl, if_pos (conflictError_contains wide label)]

/-- Claim C4 at the conflict scenario: the client that requested `taken`
reads the conflict response. -/
theorem C4_classify_response_error_witness :
    Connect { ServerAddr := str "localhost:9090", LocalAddr := str "localhost:3000",
              Subdomain := str "taken" }
        { localDialErr := false, port := str "3000", serverDialErr := false, sendErr := false,
          resp := some { Error := conflictError noWide (str "taken") }, sessionErr := false,
          acceptErr := false } =
      some { Kind := .ErrSubdomainTaken, Addr := str "taken", Detail := str "taken" } :=
  (C4_classify_response_error _ _ { Error := conflictError noWide (str "taken") } rfl rfl rfl rfl
    (conflictError_ne_nil _ _)).2 noWide (str "taken") rfl

/-- Claim C5 as amended.  For every Host string and base domain,
`extractSubdomain` cuts the host at its last colon, if it has one, and then,
if what remains ends with a dot followed by the base domain, compared byte
for byte, returns what stands before that suffix; otherwise it returns the
empty label. -/
theorem C5_extractSubdomain_exact_suffix (host base : GoString) :
    ∃ h : GoString,
      ((0x3A ∉ host ∧ h = host) ∨ ∃ port, 0x3A ∉ port ∧ host = h ++ str ":" ++ port) ∧
      ((∃ label, h = label ++ str "." ++ base ∧ extractSubdomain host base = label) ∨
        ((¬ ∃ label, h = label ++ str "." ++ base) ∧ extractSubdomain host base = [])) := by
  simp only [str_colon, str_dot, List.append_assoc, List.singleton_append]
  rcases LastIndex_split 0x3A host with ⟨hno, _⟩ | ⟨p, q, hq, hs, _⟩
  · refine ⟨host, Or.inl ⟨hno, rfl⟩, ?_⟩
    rw [extractSubdomain_noport _ _ hno]
    by_cases hsuf : HasSuffix host (0x2E :: base) = true
    · obtain ⟨t, ht⟩ := (HasSuffix_iff _ _).1 hsuf
      left
      refine ⟨t, ht, ?_⟩
      rw [if_pos hsuf, ht, TrimSuffix_append]
    · right
      refine ⟨fun ⟨l, hl⟩ => hsuf ((HasSuffix_iff _ _).2 ⟨l, hl⟩), ?_⟩
      rw [if_neg hsuf]
  · refine ⟨p, Or.inr ⟨q, hq, hs⟩, ?_⟩
    rw [hs, extractSubdomain_port _ _ _ hq]
    by_cases hsuf : HasSuffix p (0x2E :: base) = true
    · obtain ⟨t, ht⟩ := (HasSuffix_iff _ _).1 hsuf
      left
      refine ⟨t, ht, ?_⟩
      rw [if_pos hsuf, ht, TrimSuffix_append]
    · right
      refine ⟨fun ⟨l, hl⟩ => hsuf ((HasSuffix_iff _ _).2 ⟨l, hl⟩), ?_⟩
      rw [if_neg hsuf]

/-- Claim C5 as stated fails on its own example: for the Host
`demo.LOCALHOST:8080` and the base domain `localhost` the result is the empty
label, not `demo`; with the base domain in the same case it is `demo`. -/
theorem C5_uppercase_base_domain_yields_empty :
    extractSubdomain (str "demo.LOCALHOST:8080") (str "localhost") = [] ∧
      extractSubdomain (str "demo.LOCALHOST:8080") (str "localhost") ≠ str "demo" ∧
      extractSubdomain (str "demo.localhost:8080") (str "localhost") = str "demo" := by
  decide

/-- Claim C6.  For every non-empty label that is free in the registry, every
base domain and every listen address `:` followed by a port without colon,
the handshake response carries the label and the URL `http://`, label, `.`,
base domain, `:`, port, and `extractSubdomain` applied to the authority of
that URL with the base domain returns the label.  Once the session of the
client is built, the handler registers the record of this client under the
label, and a public request whose Host is that authority is routed to it: on
the registry the handler leaves, and on every registry that still holds the
record under the label, `handleHTTP` opens its stream on the session of this
client and, when the stream works, answers with the response the client
sent. -/
theorem C6_url_routes_back (wide : Nat → Bool) (cfg : Config) (tunnels : Registry)
    (env : TunnelEnv) (label port : GoString) (hlabel : label ≠ []) (hport : 0x3A ∉ port)
    (haddr : cfg.Addr = str ":" ++ port) (hhs : env.hs = some { Subdomain := label })
    (hfree : tunnels.get? label = none) :
    (handleNewTunnel wide cfg tunnels env).sent =
        [{ Subdomain := label
           URL := str "http://" ++ (label ++ str "." ++ cfg.Domain ++ str ":" ++ port) }] ∧
      extractSubdomain (label ++ str "." ++ cfg.Domain ++ str ":" ++ port) cfg.Domain = label ∧
      ∀ s, env.session = some s →
        (handleNewTunnel wide cfg tunnels env).registered =
            some { ID := randomID env.rndID, Subdomain := label, Conn := env.conn,
                   Session := s } ∧
          (handleNewTunnel wide cfg tunnels env).tunnels.get? label =
            some { ID := randomID env.rndID, Subdomain := label, Conn := env.conn,
                   Session := s } ∧
          (∀ (senv : StreamEnv),
            (handleHTTP wide cfg (handleNewTunnel wide cfg tunnels env).tunnels
                (label ++ str "." ++ cfg.Domain ++ str ":" ++ port) senv).opened = some s) ∧
          ∀ (reg : Registry) (senv : StreamEnv),
            reg.get? label =
              some { ID := randomID env.rndID, Subdomain := label, Conn := env.conn,
                     Session := s } →
            (handleHTTP wide cfg reg (label ++ str "." ++ cfg.Domain ++ str ":" ++ port)
                senv).opened = some s ∧
              (senv.openErr = false → senv.writeErr = false → ∀ resp, senv.resp = some resp →
                (handleHTTP wide cfg reg (label ++ str "." ++ cfg.Domain ++ str ":" ++ port)
                  senv).response = resp) := by
  have hext : extractSubdomain (label ++ str "." ++ cfg.Domain ++ str ":" ++ port) cfg.Domain =
      label := by
    simp only [str_colon, str_dot, List.append_assoc, List.singleton_append]
    have h := extractSubdomain_port (label ++ 0x2E :: cfg.Domain) port cfg.Domain hport
    simp only [List.append_assoc] at h
    rw [h, if_pos ((HasSuffix_iff _ _).2 ⟨label, rfl⟩), TrimSuffix_append]
  have hroute : ∀ (reg : Registry) (senv : StreamEnv) (t : Tunnel), reg.get? label = some t →
      (handleHTTP wide cfg reg (label ++ str "." ++ cfg.Domain ++ str ":" ++ port)
          senv).opened = some t.Session ∧
        (senv.openErr = false → senv.writeErr = false → ∀ resp, senv.resp = some resp →
          (handleHTTP wide cfg reg (label ++ str "." ++ cfg.Domain ++ str ":" ++ port)
            senv).response = resp) := by
    intro reg senv t hreg
    unfold handleHTTP
    simp only [hext, if_neg hlabel, hreg]
    constructor
    · split
      · rfl
      · split
        · rfl
        · cases senv.resp <;> rfl
    · intro ho hw resp hresp
      simp [ho, hw, hresp]
  refine ⟨?_, hext, ?_⟩
  · unfold handleNewTunnel
    simp only [hhs, if_neg hlabel, hfree, tunnelURL, haddr]
    cases env.session <;> simp
  · intro s hsess
    have hlab : chosenLabel { Subdomain := label } env.rndSub = label := by
      unfold chosenLabel
      rw [if_neg hlabel]
    have hrun := handleNewTunnel_free wide cfg tunnels env { Subdomain := label } s hhs
      (by rw [hlab]; exact hfree) hsess
    rw [hlab] at hrun
    have hheld : (handleNewTunnel wide cfg tunnels env).tunnels.get? label =
        some { ID := randomID env.rndID, Subdomain := label, Conn := env.conn,
               Session := s } := by
      rw [hrun]
      exact Registry.get?_set _ _ _
    refine ⟨by rw [hrun], hheld, fun senv => (hroute _ senv _ hheld).1, ?_⟩
    intro reg senv hreg
    exact hroute reg senv _ hreg

/-- Claim C6 at the happy-path scenario: label `demo`, base domain
`localhost`, address `:8080`; the public request for `demo.localhost:8080`
opens its stream on session 1, the session of the client. -/
theorem C6_url_routes_back_witness :
    (handleNewTunnel noWide scenarioConfig []
        { conn := 1, hs := some { Subdomain := str "demo" }, rndSub := [], rndID := [],
          sendErr := false, session := some 1 }).sent =
        [{ Subdomain := str "demo"
           URL := str "http://" ++
             (str "demo" ++ str "." ++ scenarioConfig.Domain ++ str ":" ++ str "8080") }] ∧
      extractSubdomain (str "demo" ++ str "." ++ scenarioConfig.Domain ++ str ":" ++ str "8080")
        scenarioConfig.Domain = str "demo" ∧
      (handleHTTP noWide scenarioConfig
          (handleNewTunnel noWide scenarioConfig []
            { conn := 1, hs := some { Subdomain := str "demo" }, rndSub := [], rndID := [],
              sendErr := false, session := some 1 }).tunnels
          (str "demo" ++ str "." ++ scenarioConfig.Domain ++ str ":" ++ str "8080")
          { openErr := false, writeErr := false
            resp := some { StatusCode := 200, Header := [], Body := str "hi" } }).opened =
        some 1 :=
  match C6_url_routes_back noWide scenarioConfig []
      { conn := 1, hs := some { Subdomain := str "demo" }, rndSub := [], rndID := [],
        sendErr := false, session := some 1 }
      (str "demo") (str "8080") (by decide) (by decide) (by decide) rfl rfl with
  | ⟨h1, h2, h3⟩ => ⟨h1, h2, (h3 1 rfl).2.2.1 _⟩

/-- Claim C7 as amended.  When the requested label is empty the server
synthesizes one label from the random source and does not retry: if that
label is present in the registry the client receives the conflict response
for it, the registry is unchanged and no record is created; if it is absent
the client receives the success response with that label. -/
theorem C7_one_label_no_retry (wide : Nat → Bool) (cfg : Config) (tunnels : Registry)
    (env : TunnelEnv) (hhs : env.hs = some { Subdomain := [] }) :
    ((tunnels.get? (randomSubdomain env.rndSub)).isSome = true →
      (handleNewTunnel wide cfg tunnels env).sent =
          [{ Subdomain := [], URL := []
             Error := conflictError wide (randomSubdomain env.rndSub) }] ∧
        (handleNewTunnel wide cfg tunnels env).tunnels = tunnels ∧
        (handleNewTunnel wide cfg tunnels env).registered = none) ∧
    (tunnels.get? (randomSubdomain env.rndSub) = none →
      (handleNewTunnel wide cfg tunnels env).sent =
        [{ Subdomain := randomSubdomain env.rndSub
           URL := tunnelURL cfg (randomSubdomain env.rndSub), Error := [] }]) := by
  constructor
  · intro hp
    unfold handleNewTunnel
    simp [hhs, hp]
  · intro hf
    unfold handleNewTunnel
    simp only [hhs, if_true, hf]
    cases env.session <;> simp

/-- Claim C7 as amended, at the random-label scenario on an empty registry. -/
theorem C7_one_label_no_retry_witness :
    (handleNewTunnel noWide scenarioConfig []
        { conn := 1, hs := some { Subdomain := [] }, rndSub := [0x3f, 0xa9, 0x00, 0xc4],
          rndID := [], sendErr := false, session := some 1 }).sent =
      [{ Subdomain := str "3fa900c4", URL := str "http://3fa900c4.localhost:8080", Error := [] }] := by
  have h := (C7_one_label_no_retry noWide scenarioConfig []
    { conn := 1, hs := some { Subdomain := [] }, rndSub := [0x3f, 0xa9, 0x00, 0xc4],
      rndID := [], sendErr := false, session := some 1 } rfl).2 (by decide)
  rw [h]
  decide

/-- Claim C7 as stated fails: the registry holds `3fa900c4`, a client sends
an empty label and the random source gives the bytes 3f a9 00 c4; the client
receives the conflict response, nothing is registered, and no second label is
drawn. -/
theorem C7_collision_is_conflict :
    (handleNewTunnel noWide scenarioConfig [(str "3fa900c4", recordFor (str "3fa900c4"))]
        { conn := 2, hs := some { Subdomain := [] }, rndSub := [0x3f, 0xa9, 0x00, 0xc4],
          rndID := [], sendErr := false, session := some 2 }) =
      { tunnels := [(str "3fa900c4", recordFor (str "3fa900c4"))]
        sent := [{ Subdomain := [], URL := []
                   Error := str "subdomain \"3fa900c4\" is already in use" }]
        connClosed := true
        registered := none } := by
  decide

/-- Claim C8.  For every 4 bytes from the random source `randomSubdomain`
returns 8 characters, each one of `0-9` or `a-f`, and different 4 bytes give
different labels. -/
theorem C8_randomSubdomain_hex (r1 r2 : List Nat) (hlen1 : r1.length = 4)
    (hlen2 : r2.length = 4) (hb1 : ∀ b ∈ r1, b < 256) (hb2 : ∀ b ∈ r2, b < 256) :
    (randomSubdomain r1).length = 8 ∧
      (∀ c ∈ randomSubdomain r1, (0x30 ≤ c ∧ c ≤ 0x39) ∨ (0x61 ≤ c ∧ c ≤ 0x66)) ∧
      (r1 ≠ r2 → randomSubdomain r1 ≠ randomSubdomain r2) := by
  unfold randomSubdomain
  rw [randRead_four r1 hlen1, randRead_four r2 hlen2]
  refine ⟨by rw [hexEncodeToString_length, hlen1], ?_, ?_⟩
  · intro c hc
    have := hexEncodeToString_hex r1 c hc
    simpa [isLowerHex] using this
  · intro hne he
    exact hne (hexEncodeToString_inj r1 r2 hb1 hb2 (by rw [hlen1, hlen2]) he)

/-- Claim C8 at the bytes 3f a9 00 c4 and 3f a9 00 c5. -/
theorem C8_randomSubdomain_hex_witness :
    randomSubdomain [0x3f, 0xa9, 0x00, 0xc4] = str "3fa900c4" ∧
      (randomSubdomain [0x3f, 0xa9, 0x00, 0xc4]).length = 8 ∧
      randomSubdomain [0x3f, 0xa9, 0x00, 0xc4] ≠ randomSubdomain [0x3f, 0xa9, 0x00, 0xc5] :=
  ⟨by decide,
    (C8_randomSubdomain_hex [0x3f, 0xa9, 0x00, 0xc4] [0x3f, 0xa9, 0x00, 0xc5] rfl rfl
      (by decide) (by decide)).1,
    (C8_randomSubdomain_hex [0x3f, 0xa9, 0x00, 0xc4] [0x3f, 0xa9, 0x00, 0xc5] rfl rfl
      (by decide) (by decide)).2.2 (by decide)⟩

/-- Claim C9 as amended.  For every public request whose Host yields a
non-empty label that is absent from the registry, `handleHTTP` answers with
status 404 and the body `openport: tunnel `, the label as `%q` prints it,
` not found` and the newline of `http.Error`; for a label of printable ASCII
without `"` and `\` the label stands unchanged between the double quotes; and
no stream is opened. -/
theorem C9_not_found_body (wide : Nat → Bool) (cfg : Config) (tunnels : Registry)
    (host : GoString) (env : StreamEnv) (label : GoString)
    (hhost : extractSubdomain host cfg.Domain = label) (hlabel : label ≠ [])
    (habsent : tunnels.get? label = none) :
    (handleHTTP wide cfg tunnels host env).response.StatusCode = 404 ∧
      (handleHTTP wide cfg tunnels host env).response.Body =
        str "openport: tunnel " ++ Quote wide label ++ str " not found" ++ str "\n" ∧
      (plainLabel label = true →
        (handleHTTP wide cfg tunnels host env).response.Body =
          str "openport: tunnel \"" ++ label ++ str "\" not found" ++ str "\n") ∧
      (handleHTTP wide cfg tunnels host env).opened = none := by
  have hrun : handleHTTP wide cfg tunnels host env =
      { response :=
          httpError (str "openport: tunnel " ++ Quote wide label ++ str " not found") 404
        opened := none } := by
    unfold handleHTTP
    simp only [hhost, if_neg hlabel, habsent]
  rw [hrun]
  refine ⟨rfl, rfl, ?_, rfl⟩
  intro hp
  rw [Quote_plain wide label hp]
  simp only [httpError, List.append_assoc]
  have : str "openport: tunnel \"" = str "openport: tunnel " ++ str "\"" := by decide
  have h2 : str "\" not found" = str "\"" ++ str " not found" := by decide
  rw [this, h2]
  simp

/-- Claim C9 as amended, at the unknown-subdomain scenario: Host
`ghost.localhost:8080`, empty registry. -/
theorem C9_not_found_body_witness :
    (handleHTTP noWide scenarioConfig [] (str "ghost.localhost:8080")
        { openErr := false, writeErr := false, resp := none }).response.Body =
      str "openport: tunnel \"ghost\" not found\n" := by
  have h := (C9_not_found_body noWide scenarioConfig [] (str "ghost.localhost:8080")
    { openErr := false, writeErr := false, resp := none } (str "ghost") (by decide) (by decide)
    rfl).2.2.1 (by decide)
  rw [h]
  decide

/-- Claim C9 as stated fails for a label with a double quote: for the Host
`a"b.localhost:8080` the label is `a"b` and the body holds `a\"b` between the
quotes; it is not the label copied between the quotes, with or without the
final newline. -/
theorem C9_quote_in_label_is_escaped :
    extractSubdomain (str "a\"b.localhost:8080") scenarioConfig.Domain = str "a\"b" ∧
    (handleHTTP noWide scenarioConfig [] (str "a\"b.localhost:8080")
        { openErr := false, writeErr := false, resp := none }).response.Body =
      str "openport: tunnel \"a\\\"b\" not found\n" ∧
    (handleHTTP noWide scenarioConfig [] (str "a\"b.localhost:8080")
        { openErr := false, writeErr := false, resp := none }).response.Body ≠
      str "openport: tunnel \"" ++ str "a\"b" ++ str "\" not found" ∧
    (handleHTTP noWide scenarioConfig [] (str "a\"b.localhost:8080")
        { openErr := false, writeErr := false, resp := none }).response.Body ≠
      str "openport: tunnel \"" ++ str "a\"b" ++ str "\" not found" ++ str "\n" := by
  decide

/-- Claim C10 as amended.  For every handshake request `SendHandshake`
writes one JSON object, `subdomain` with the label as a JSON string when the
label is non-empty and the empty object when it is empty, followed by one
newline byte; the object itself holds no newline. -/
theorem C10_object_then_newline (h : Handshake) :
    ∃ object : GoString,
      SendHandshake h = object ++ [0x0A] ∧
      object =
        (if h.Subdomain = [] then str "\x7b\x7d"
         else str "\x7b\"subdomain\":" ++ jsonString h.Subdomain ++ str "\x7d") ∧
      0x0A ∉ object := by
  have hname : jsonString (str "subdomain") ++ str ":" = str "\"subdomain\":" := by decide
  by_cases he : h.Subdomain = []
  · refine ⟨str "\x7b\x7d", ?_, by rw [if_pos he], by decide⟩
    simp [SendHandshake, Encode, marshalStruct, members, Handshake.fields, he]
    decide
  · have hfalse : h.Subdomain.isEmpty = false := by
      cases hs : h.Subdomain with
      | nil => exact absurd hs he
      | cons a t => rfl
    refine ⟨str "\x7b\"subdomain\":" ++ jsonString h.Subdomain ++ str "\x7d", ?_,
      by rw [if_neg he], ?_⟩
    · have e1 : str "\x7b\"subdomain\":" = [0x7B] ++ str "\"subdomain\":" := by decide
      have e2 : str "\x7d" = [0x7D] := by decide
      simp only [SendHandshake, Encode, marshalStruct, members, Handshake.fields, List.filter,
        hfalse, Bool.and_false, Bool.not_false, List.map, List.intercalate, List.intersperse,
        List.flatten, List.append_nil, e1, e2, ← hname, List.append_assoc]
    · have e1 : str "\x7b\"subdomain\":" =
          [0x7B, 0x22, 0x73, 0x75, 0x62, 0x64, 0x6F, 0x6D, 0x61, 0x69, 0x6E, 0x22, 0x3A] := by
        decide
      have e2 : str "\x7d" = [0x7D] := by decide
      rw [e1, e2]
      have := jsonString_no_newline h.Subdomain
      simp only [List.mem_append, List.mem_cons, List.mem_nil_iff, or_false, not_or,
        List.not_mem_nil]
      exact ⟨⟨by omega, this⟩, by omega⟩

/-- Claim C10 as stated fails: for the label `demo` the 21 bytes written are
the object and a newline after its closing brace, and for the empty label the
bytes are the empty object and a newline. -/
theorem C10_newline_after_closing_brace :
    SendHandshake { Subdomain := str "demo" } =
      str "\x7b\"subdomain\":\"demo\"\x7d" ++ [0x0A] ∧
    SendHandshake { Subdomain := str "demo" } ≠ str "\x7b\"subdomain\":\"demo\"\x7d" ∧
    SendHandshake { Subdomain := [] } = str "\x7b\x7d" ++ [0x0A] := by
  decide

/-! ## The claims on the end of a tunnel -/

/-- The removal of lines 146 to 151 in the step model: once the close channel
of its session has fired, a handler that waits on it takes the mutex, deletes
its label, releases the mutex and returns; the registry is then
`unregister` of the registry before. -/
theorem unregister_alone (wide : Nat → Bool) (cfg : Config) (tunnels : Registry) (h : Handler)
    (hpc : h.pc = .waitClose) :
    Sys.exec wide cfg { tunnels := tunnels, mu := none, handlers := [h] }
        [.closeSession 0, .run 0, .run 0, .run 0, .run 0] =
      some { tunnels := unregister tunnels h.subdomain, mu := none,
             handlers := [{ h with pc := .done, sessionClosed := true }] } := by
  simp [Sys.exec, Sys.step, runHandler, hpc, unregister]

/-- Claim C11, which the code breaks.  `handleNewTunnel` drops the value
`SendHandshakeResp` returns.  For every registry and every handshake whose
label is free, when the write of the success response returns an error and
`yamux.Client` builds the session, the handler inserts the record all the
same: the registry holds the record under the label and differs from the
registry before, and the whole outcome is the one of a run in which the write
succeeded. -/
theorem C11_record_inserted_after_failed_send (wide : Nat → Bool) (cfg : Config)
    (tunnels : Registry) (env : TunnelEnv) (hs : Handshake) (s : Nat)
    (hsend : env.sendErr = true) (hhs : env.hs = some hs)
    (hfree : tunnels.get? (chosenLabel hs env.rndSub) = none) (hsess : env.session = some s) :
    (handleNewTunnel wide cfg tunnels env).registered =
        some { ID := randomID env.rndID, Subdomain := chosenLabel hs env.rndSub,
               Conn := env.conn, Session := s } ∧
      (handleNewTunnel wide cfg tunnels env).tunnels.get? (chosenLabel hs env.rndSub) =
        some { ID := randomID env.rndID, Subdomain := chosenLabel hs env.rndSub,
               Conn := env.conn, Session := s } ∧
      (handleNewTunnel wide cfg tunnels env).tunnels ≠ tunnels ∧
      handleNewTunnel wide cfg tunnels env =
        handleNewTunnel wide cfg tunnels { env with sendErr := false } := by
  have _ := hsend
  have hrun := handleNewTunnel_free wide cfg tunnels env hs s hhs hfree hsess
  have hrun2 := handleNewTunnel_free wide cfg tunnels { env with sendErr := false } hs s hhs hfree
    hsess
  refine ⟨by rw [hrun], by rw [hrun]; exact Registry.get?_set _ _ _, ?_, by rw [hrun, hrun2]⟩
  intro heq
  have h1 : (handleNewTunnel wide cfg tunnels env).tunnels.get? (chosenLabel hs env.rndSub) =
      tunnels.get? (chosenLabel hs env.rndSub) := by rw [heq]
  rw [hrun, hfree] at h1
  simp only [Registry.get?_set] at h1
  exact absurd h1 (by simp)

/-- Claim C11 at the happy-path scenario with a failed write: the client
requests `demo` on an empty registry, the write of the success response
returns an error, and the registry afterwards holds the record for `demo`. -/
theorem C11_record_inserted_after_failed_send_witness :
    (handleNewTunnel noWide scenarioConfig []
        { conn := 1, hs := some { Subdomain := str "demo" }, rndSub := [], rndID := [7],
          sendErr := true, session := some 1 }).tunnels =
      [(str "demo",
        { ID := str "0700000000000000", Subdomain := str "demo", Conn := 1, Session := 1 })] ∧
    (handleNewTunnel noWide scenarioConfig []
        { conn := 1, hs := some { Subdomain := str "demo" }, rndSub := [], rndID := [7],
          sendErr := true, session := some 1 }).tunnels ≠ [] :=
  ⟨by decide,
    (C11_record_inserted_after_failed_send noWide scenarioConfig []
      { conn := 1, hs := some { Subdomain := str "demo" }, rndSub := [], rndID := [7],
        sendErr := true, session := some 1 } { Subdomain := str "demo" } 1 rfl rfl rfl rfl).2.2.1⟩

/-- Claim C12.  Let a run of `handleNewTunnel` have registered the record
`t`; its label is `t.Subdomain`, and the registry it leaves holds `t` there.
For every registry at the time the close channel of the session fires, the
removal step leaves the label absent and the record of every other label as
it was; and a handshake that then requests the label passes the uniqueness
check, is answered with the success response and, once its session is built,
is registered under the label. -/
theorem C12_cleanup_frees_label (wide : Nat → Bool) (cfg : Config) (tunnels0 : Registry)
    (env0 : TunnelEnv) (t : Tunnel)
    (hreg : (handleNewTunnel wide cfg tunnels0 env0).registered = some t)
    (tunnels : Registry) (env : TunnelEnv)
    (hhs : env.hs = some { Subdomain := t.Subdomain }) :
    (handleNewTunnel wide cfg tunnels0 env0).tunnels.get? t.Subdomain = some t ∧
      (unregister tunnels t.Subdomain).get? t.Subdomain = none ∧
      (∀ k, k ≠ t.Subdomain → (unregister tunnels t.Subdomain).get? k = tunnels.get? k) ∧
      (handleNewTunnel wide cfg (unregister tunnels t.Subdomain) env).sent =
        [{ Subdomain := t.Subdomain, URL := tunnelURL cfg t.Subdomain, Error := [] }] ∧
      (∀ s, env.session = some s →
        (handleNewTunnel wide cfg (unregister tunnels t.Subdomain) env).registered =
            some { ID := randomID env.rndID, Subdomain := t.Subdomain, Conn := env.conn,
                   Session := s } ∧
          (handleNewTunnel wide cfg (unregister tunnels t.Subdomain) env).tunnels.get?
              t.Subdomain =
            some { ID := randomID env.rndID, Subdomain := t.Subdomain, Conn := env.conn,
                   Session := s }) := by
  obtain ⟨hne, hheld⟩ := handleNewTunnel_registered wide cfg tunnels0 env0 t hreg
  have habsent : (unregister tunnels t.Subdomain).get? t.Subdomain = none :=
    Registry.get?_delete_self tunnels t.Subdomain
  have hlabel : chosenLabel { Subdomain := t.Subdomain } env.rndSub = t.Subdomain := by
    unfold chosenLabel
    rw [if_neg hne]
  refine ⟨hheld, habsent, fun k hk => Registry.get?_delete_ne tunnels t.Subdomain k hk, ?_, ?_⟩
  · unfold handleNewTunnel
    simp only [hhs, if_neg hne, habsent, Option.isSome_none, Bool.false_eq_true, if_false]
    cases env.session <;> rfl
  · intro s hsess
    have hrun := handleNewTunnel_free wide cfg (unregister tunnels t.Subdomain) env
      { Subdomain := t.Subdomain } s hhs (by rw [hlabel]; exact habsent) hsess
    rw [hlabel] at hrun
    rw [hrun]
    exact ⟨rfl, Registry.get?_set _ _ _⟩

/-- Claim C12 at the happy-path scenario: the tunnel `demo` is registered on
an empty registry, its session ends, and a second client requests `demo`. -/
theorem C12_cleanup_frees_label_witness :
    unregister
        [(str "demo",
          { ID := str "0700000000000000", Subdomain := str "demo", Conn := 1, Session := 1 })]
        (str "demo") = [] ∧
    (handleNewTunnel noWide scenarioConfig
        (unregister
          [(str "demo",
            { ID := str "0700000000000000", Subdomain := str "demo", Conn := 1, Session := 1 })]
          (str "demo"))
        { conn := 2, hs := some { Subdomain := str "demo" }, rndSub := [], rndID := [8],
          sendErr := false, session := some 2 }).sent =
      [{ Subdomain := str "demo", URL := tunnelURL scenarioConfig (str "demo"), Error := [] }] :=
  ⟨by decide,
    (C12_cleanup_frees_label noWide scenarioConfig []
      { conn := 1, hs := some { Subdomain := str "demo" }, rndSub := [], rndID := [7],
        sendErr := false, session := some 1 }
      { ID := str "0700000000000000", Subdomain := str "demo", Conn := 1, Session := 1 }
      (by decide)
      [(str "demo",
        { ID := str "0700000000000000", Subdomain := str "demo", Conn := 1, Session := 1 })]
      { conn := 2, hs := some { Subdomain := str "demo" }, rndSub := [], rndID := [8],
        sendErr := false, session := some 2 } rfl).2.2.2.1⟩

end Openport
